import Mathlib

/-!
Verification development for the bank-statement parsing subsystem of the
`streamlit-bank-dashboard` repository (`ban_statemnt_import.py`).

The Python source is shallowly embedded: text is a `String` (processed as
`List Char`), money amounts are exact rationals `ℚ` (the source uses Python
floats only for parsing decimal tokens and tolerance comparisons; all the
constants involved are exact decimals, so `ℚ` is the intended arithmetic),
dates are an `Option PDate` (`none` models pandas `NaT`), and a parser that
can raise an uncaught exception returns `Option (List Row)`.

Python `float(...)` is modelled by `pyFloatQ` over the decimal grammar
`[+-]? (digits [. digits?] | . digits) ([eE] [+-]? digits)?`; the exotic
inputs Python additionally accepts (`inf`, `nan`, underscore separators,
surrounding whitespace) do not occur on any path exercised here because every
token is comma-stripped and whitespace-split first.
-/

/-- Python whitespace (`str.split`, `str.strip`, regex `\s`). -/
def isPyWS (c : Char) : Bool :=
  c = ' ' || c = '\t' || c = '\n' || c = '\r' || c = '\x0b' || c = '\x0c'

/-- Regex word character `\w` (ASCII): letter, digit or underscore. -/
def isWordChar (c : Char) : Bool :=
  c.isAlpha || c.isDigit || c = '_'

/-- `str.strip()`: drop leading and trailing whitespace. -/
def pyStrip (cs : List Char) : List Char :=
  ((cs.dropWhile isPyWS).reverse.dropWhile isPyWS).reverse

/-- Helper for `splitNL`: accumulates the current line (reversed). -/
def splitNLAux : List Char → List Char → List (List Char)
  | [], acc => [acc.reverse]
  | c :: cs, acc => if c = '\n' then acc.reverse :: splitNLAux cs [] else splitNLAux cs (c :: acc)

/-- Python `text.split('\n')` (keeps empty pieces). -/
def splitNL (cs : List Char) : List (List Char) :=
  splitNLAux cs []

/-- Helper for `pyWords`: accumulates the current word (reversed). -/
def splitWSAux : List Char → List Char → List (List Char)
  | [], acc => if acc = [] then [] else [acc.reverse]
  | c :: cs, acc =>
    if isPyWS c then (if acc = [] then splitWSAux cs [] else acc.reverse :: splitWSAux cs [])
    else splitWSAux cs (c :: acc)

/-- Python `str.split()` with no argument: split on whitespace runs, no empty words. -/
def pyWords (cs : List Char) : List (List Char) :=
  splitWSAux cs []

/-- `" ".join(ws)`. -/
def joinSpace : List (List Char) → List Char
  | [] => []
  | [w] => w
  | w :: ws => w ++ ' ' :: joinSpace ws

/-- `s.replace(',', '')`: drop every comma. -/
def decomma (cs : List Char) : List Char :=
  cs.filter (fun c => c ≠ ',')

/-- Does `cs` start with `pat`? -/
def startsWithL : List Char → List Char → Bool
  | _, [] => true
  | [], _ :: _ => false
  | a :: as, b :: bs => a = b && startsWithL as bs

/-- Python substring test `pat in cs`. -/
def containsSub : List Char → List Char → Bool
  | [], pat => pat.isEmpty
  | a :: as, pat => startsWithL (a :: as) pat || containsSub as pat

/-- `str.upper()` (ASCII). -/
def upperL (cs : List Char) : List Char :=
  cs.map Char.toUpper

/-- `re.sub(r'\s+', '', s)`: remove all whitespace. -/
def remWS (cs : List Char) : List Char :=
  cs.filter (fun c => ¬ isPyWS c)

/-- Helper for `collapseWS`; the flag records whether the previous kept char was whitespace. -/
def collapseWSAux : Bool → List Char → List Char
  | _, [] => []
  | prevWS, c :: cs =>
    if isPyWS c then (if prevWS then collapseWSAux true cs else ' ' :: collapseWSAux true cs)
    else c :: collapseWSAux false cs

/-- `re.sub(r'\s+', ' ', s)`: collapse whitespace runs to one space. -/
def collapseWS (cs : List Char) : List Char :=
  collapseWSAux false cs

/-- Numeric value of a digit string (most significant first). -/
def digitsToNat (ds : List Char) : ℕ :=
  ds.foldl (fun n c => n * 10 + (c.toNat - '0'.toNat)) 0

/-- `a + b` on `ℚ` by cross multiplication (written with `mkRat` so that
concrete inputs evaluate by kernel reduction; the core `Rat` operations are
irreducible). Proved equal to `a + b` below. -/
def qadd (a b : ℚ) : ℚ :=
  mkRat (a.num * b.den + b.num * a.den) (a.den * b.den)

/-- `a - b` on `ℚ` by cross multiplication. -/
def qsub (a b : ℚ) : ℚ :=
  mkRat (a.num * b.den - b.num * a.den) (a.den * b.den)

/-- `-a` on `ℚ`. -/
def qneg (a : ℚ) : ℚ :=
  mkRat (-a.num) a.den

/-- The strict-order test `a < b` on `ℚ` by cross multiplication. -/
def qblt (a b : ℚ) : Bool :=
  a.num * (b.den : ℤ) < b.num * (a.den : ℤ)

/-- `m / 10 ^ k` on `ℚ`. -/
def qdivPow10 (m : ℚ) (k : ℕ) : ℚ :=
  mkRat m.num (m.den * 10 ^ k)

/-- `m * 10 ^ k` on `ℚ`. -/
def qmulPow10 (m : ℚ) (k : ℕ) : ℚ :=
  mkRat (m.num * Int.ofNat (10 ^ k)) m.den

/-- The tolerance `0.001` of the debit/credit inference. -/
def eps1000 : ℚ := mkRat 1 1000

/-- Mantissa value `intpart.fracpart` as an exact rational. -/
def mantissaQ (ds1 ds2 : List Char) : ℚ :=
  mkRat (Int.ofNat (digitsToNat ds1 * 10 ^ ds2.length + digitsToNat ds2)) (10 ^ ds2.length)

/-- Signed digit string after `e`/`E` in the float grammar, applied to a
mantissa: `m / 10^e` for a negative exponent, `m * 10^e` otherwise. -/
def expTail (m : ℚ) : List Char → Option ℚ
  | '-' :: ds => if ds ≠ [] ∧ ds.all Char.isDigit then some (qdivPow10 m (digitsToNat ds)) else none
  | '+' :: ds => if ds ≠ [] ∧ ds.all Char.isDigit then some (qmulPow10 m (digitsToNat ds)) else none
  | ds => if ds ≠ [] ∧ ds.all Char.isDigit then some (qmulPow10 m (digitsToNat ds)) else none

/-- Optional exponent tail `([eE] [+-]? digits)?` applied to a mantissa. -/
def expPart (m : ℚ) : List Char → Option ℚ
  | [] => some m
  | 'e' :: r => expTail m r
  | 'E' :: r => expTail m r
  | _ => none

/-- Unsigned part of the Python float grammar: `digits [. digits?] | . digits`, then exponent. -/
def pyFloatMag (s : List Char) : Option ℚ :=
  let ds1 := s.takeWhile Char.isDigit
  let r1 := s.dropWhile Char.isDigit
  match r1 with
  | '.' :: r2 =>
    let ds2 := r2.takeWhile Char.isDigit
    let r3 := r2.dropWhile Char.isDigit
    if ds1 = [] ∧ ds2 = [] then none else expPart (mantissaQ ds1 ds2) r3
  | _ => if ds1 = [] then none else expPart (mantissaQ ds1 []) r1

/-- Python `float(s)` on an already-stripped token, as an exact rational;
`none` models a raised `ValueError`. -/
def pyFloatQ : List Char → Option ℚ
  | '-' :: rest => (pyFloatMag rest).map qneg
  | '+' :: rest => pyFloatMag rest
  | s => pyFloatMag s

/-- A calendar date as parsed by `pd.to_datetime` with an explicit format. -/
structure PDate where
  year : ℕ
  month : ℕ
  day : ℕ
deriving DecidableEq, Repr

/-- Gregorian month length. -/
def daysInMonth (y m : ℕ) : ℕ :=
  if m = 2 then (if y % 4 = 0 ∧ (y % 100 ≠ 0 ∨ y % 400 = 0) then 29 else 28)
  else if m = 4 ∨ m = 6 ∨ m = 9 ∨ m = 11 then 30
  else 31

/-- Calendar validity check used by `strptime`-style parsing. -/
def validDate (y m d : ℕ) : Bool :=
  1 ≤ m ∧ m ≤ 12 ∧ 1 ≤ d ∧ d ≤ daysInMonth y m

/-- A 1-2 digit numeric field (`%d`, `%m`, `%y`). -/
def numField2 (cs : List Char) : Option ℕ :=
  if cs ≠ [] ∧ cs.length ≤ 2 ∧ cs.all Char.isDigit then some (digitsToNat cs) else none

/-- A 1-4 digit numeric field (`%Y`). -/
def numField4 (cs : List Char) : Option ℕ :=
  if cs ≠ [] ∧ cs.length ≤ 4 ∧ cs.all Char.isDigit then some (digitsToNat cs) else none

/-- `strptime` two-digit-year pivot: `00-68 → 2000-2068`, `69-99 → 1969-1999`. -/
def pivotY2 (y : ℕ) : ℕ :=
  if y ≤ 68 then 2000 + y else 1900 + y

/-- Split on a single separator character (keeps empty pieces). -/
def splitSepAux (sep : Char) : List Char → List Char → List (List Char)
  | [], acc => [acc.reverse]
  | c :: cs, acc => if c = sep then acc.reverse :: splitSepAux sep cs [] else splitSepAux sep cs (c :: acc)

/-- Split on a separator character. -/
def splitSep (sep : Char) (cs : List Char) : List (List Char) :=
  splitSepAux sep cs []

/-- `pd.to_datetime(tok, format="%d<sep>%m<sep>%Y")`: `none` models a raised
`ValueError` (or, with `errors="coerce"` at the call site, `NaT`). -/
def parseDateDMY4 (sep : Char) (tok : List Char) : Option PDate :=
  match splitSep sep tok with
  | [d, m, y] =>
    match numField2 d, numField2 m, numField4 y with
    | some dv, some mv, some yv => if validDate yv mv dv then some ⟨yv, mv, dv⟩ else none
    | _, _, _ => none
  | _ => none

/-- `pd.to_datetime(tok, format="%d<sep>%m<sep>%y")` (two-digit year). -/
def parseDateDMY2 (sep : Char) (tok : List Char) : Option PDate :=
  match splitSep sep tok with
  | [d, m, y] =>
    match numField2 d, numField2 m, numField2 y with
    | some dv, some mv, some yv =>
      if validDate (pivotY2 yv) mv dv then some ⟨pivotY2 yv, mv, dv⟩ else none
    | _, _, _ => none
  | _ => none

/-- `%b` month abbreviation (case-insensitive), as in `strptime`. -/
def monthAbbrev (tok : List Char) : Option ℕ :=
  match upperL tok with
  | ['J','A','N'] => some 1
  | ['F','E','B'] => some 2
  | ['M','A','R'] => some 3
  | ['A','P','R'] => some 4
  | ['M','A','Y'] => some 5
  | ['J','U','N'] => some 6
  | ['J','U','L'] => some 7
  | ['A','U','G'] => some 8
  | ['S','E','P'] => some 9
  | ['O','C','T'] => some 10
  | ['N','O','V'] => some 11
  | ['D','E','C'] => some 12
  | _ => none

/-- `pd.to_datetime("d mon y", format="%d %b %Y")` on the three tokens. -/
def parseDateDMonY (d mon y : List Char) : Option PDate :=
  match numField2 d, monthAbbrev mon, numField4 y with
  | some dv, some mv, some yv => if validDate yv mv dv then some ⟨yv, mv, dv⟩ else none
  | _, _, _ => none

/-- One row of the tabular result every parser produces
(`Date`, `Narration`, `Withdrawal Amt.`, `Deposit Amt.`, `Closing Balance`).
`date = none` models pandas `NaT`. -/
structure Row where
  date : Option PDate
  narr : List Char
  withdrawal : ℚ
  deposit : ℚ
  closing : ℚ
deriving DecidableEq, Repr

/-- The page-break sentinel inserted by the text extractor. -/
def pageBreakMark : List Char := "--- PAGE BREAK ---".toList

/-- Shared block-assembly loop (`cleaned_lines` construction): each raw line is
stripped; `pre` lines are skipped outright (the per-parser `continue` guards);
a line matching `pat` (or any line while the accumulator is empty) starts a new
block; otherwise the line is joined onto the previous block with a space,
unless `joinDrop` recognizes it as boilerplate. The accumulator is kept
reversed; `h` is its most recent block. -/
def assemble (pre pat joinDrop : List Char → Bool) :
    List (List Char) → List (List Char) → List (List Char)
  | revAcc, [] => revAcc.reverse
  | [], l :: ls =>
    let s := pyStrip l
    if pre s then assemble pre pat joinDrop [] ls
    else assemble pre pat joinDrop [s] ls
  | h :: t, l :: ls =>
    let s := pyStrip l
    if pre s then assemble pre pat joinDrop (h :: t) ls
    else if pat s then assemble pre pat joinDrop (s :: h :: t) ls
    else if joinDrop s then assemble pre pat joinDrop (h :: t) ls
    else assemble pre pat joinDrop ((h ++ ' ' :: s) :: t) ls

/-- Regex `\d{2}<sep>\d{2}<sep>\d{4}` tested as a prefix (`re.match`). -/
def dateShape10 (sep : Char) : List Char → Bool
  | a :: b :: c :: d :: e :: f :: g :: h :: i :: j :: _ =>
    a.isDigit && b.isDigit && c = sep && d.isDigit && e.isDigit && f = sep &&
      g.isDigit && h.isDigit && i.isDigit && j.isDigit
  | _ => false

/-- Regex `\d{2}/\d{2}/\d{2}` tested as a prefix. -/
def dateShape8 (sep : Char) : List Char → Bool
  | a :: b :: c :: d :: e :: f :: g :: h :: _ =>
    a.isDigit && b.isDigit && c = sep && d.isDigit && e.isDigit && f = sep &&
      g.isDigit && h.isDigit
  | _ => false

/-- `parse_axis_bank_format1` line-start regex `^\d+\s+\d{2}/\d{2}/\d{4}`. -/
def patAxisF1 (cs : List Char) : Bool :=
  let ds := cs.takeWhile Char.isDigit
  let r1 := cs.dropWhile Char.isDigit
  let ws := r1.takeWhile isPyWS
  ds ≠ [] && ws ≠ [] && dateShape10 '/' (r1.dropWhile isPyWS)

/-- `parse_axis_bank_format2` line-start regex `^\d{2}-\d{2}-\d{4}`. -/
def patAxisF2 (cs : List Char) : Bool :=
  dateShape10 '-' cs

/-- Balance-token test `re.match(r"^[\d,.]+$", tok)` in `parse_axis_bank_format1`. -/
def isNumTok (cs : List Char) : Bool :=
  ¬ cs.isEmpty && cs.all (fun c => c.isDigit || c = ',' || c = '.')

/-- The `while end_index > 3` backward scan of `parse_axis_bank_format1`:
from index `e` downward, stop at the first index `> 3` holding a `[\d,.]+`
token, or at 3. Invoked with `e = parts.length - 1`. -/
def axisF1EndIdx (parts : List (List Char)) : ℕ → ℕ
  | 0 => 0
  | e + 1 =>
    if 3 < e + 1 then
      (if isNumTok (parts.getD (e + 1) []) then e + 1 else axisF1EndIdx parts e)
    else e + 1

/-- Money normalization of `parse_axis_bank_format1` (and its clones): strip
commas and whitespace, replace an empty string by `"0"`, then
`pd.to_numeric(errors="coerce").fillna(0)`. -/
def cleanMoneyEmptyTo0 (tok : List Char) : ℚ :=
  let s := pyStrip (decomma tok)
  let s2 := if s = [] then ['0'] else s
  (pyFloatQ s2).getD 0

/-- Money normalization of `parse_au_bank` / `parse_bank_of_baroda`: strip
commas and whitespace, replace a value that is exactly `"-"` by `"0"`
(`Series.replace` is a whole-value match), then coerce with `fillna(0)`. -/
def cleanMoneyDashTo0 (tok : List Char) : ℚ :=
  let s := pyStrip (decomma tok)
  let s2 := if s = ['-'] then ['0'] else s
  (pyFloatQ s2).getD 0

/-- Field extraction for one assembled `parse_axis_bank_format1` block:
positional split, backward balance scan, strict date parse (a `ValueError`
skips the row). -/
def axisF1Line (l : List Char) : Option Row :=
  if ¬ patAxisF1 l then none else
  let parts := pyWords l
  if parts.length < 6 then none else
  let e := axisF1EndIdx parts (parts.length - 1)
  let balTok := if 3 < e then parts.getD e [] else ['0']
  let creditTok := parts.getD (e - 1) []
  let debitTok := parts.getD (e - 2) []
  let narr := pyStrip (joinSpace ((parts.drop 3).take (e - 2 - 3)))
  match parseDateDMY4 '/' (parts.getD 1 []) with
  | none => none
  | some dt =>
    some ⟨some dt, narr, cleanMoneyEmptyTo0 debitTok, cleanMoneyEmptyTo0 creditTok,
      cleanMoneyEmptyTo0 balTok⟩

/-- `parse_axis_bank_format1` (lines 164-196 of `ban_statemnt_import.py`). -/
def parse_axis_bank_format1 (text : String) : List Row :=
  (assemble (fun _ => false) patAxisF1
    (fun s => containsSub s pageBreakMark || containsSub s "S.NO Transaction".toList)
    [] (splitNL text.toList)).filterMap axisF1Line

/-- Case-insensitive literal prefix match (regex `re.IGNORECASE`). -/
def startsWithCIL : List Char → List Char → Bool
  | _, [] => true
  | [], _ :: _ => false
  | a :: as, b :: bs => a.toUpper = b.toUpper && startsWithCIL as bs

/-- `re.search(r"OPENING BALANCE\s+([\d,.]+)", text, re.IGNORECASE)`: the first
position where the case-insensitive literal, some whitespace and a `[\d,.]+`
token all match; returns the token. -/
def findOpeningTok : List Char → Option (List Char)
  | [] => none
  | c :: rest =>
    if startsWithCIL (c :: rest) "OPENING BALANCE".toList then
      match (c :: rest).drop 15 with
      | w :: r =>
        if isPyWS w then
          let r1 := (w :: r).dropWhile isPyWS
          let tok := r1.takeWhile (fun ch => ch.isDigit || ch = ',' || ch = '.')
          if tok ≠ [] then some tok else findOpeningTok rest
        else findOpeningTok rest
      | [] => findOpeningTok rest
    else findOpeningTok rest

/-- The single-amount debit/credit inference of `parse_axis_bank_format2`
(lines 217-221): result is `(withdrawal, deposit)`. -/
def inferStep : Option ℚ → ℚ → ℚ → ℚ × ℚ
  | some lb, amount, balance =>
    if qblt (qadd lb eps1000) balance then (0, amount) else (amount, 0)
  | none, amount, _ => (amount, 0)

/-- Field extraction for one `parse_axis_bank_format2` line: last token is the
balance, second-to-last the amount, polarity from `inferStep`; any
`ValueError` (bad float, bad date) skips the row without touching
`last_balance`. Returns the row and the new `last_balance`. -/
def axisF2Line (last : Option ℚ) (l : List Char) : Option (Row × ℚ) :=
  let parts := pyWords l
  if parts.length < 3 then none else
  match pyFloatQ (decomma (parts.getD (parts.length - 1) [])) with
  | none => none
  | some balance =>
    match pyFloatQ (decomma (parts.getD (parts.length - 2) [])) with
    | none => none
    | some amount =>
      let wd := inferStep last amount balance
      let narr := pyStrip (joinSpace ((parts.drop 1).take (parts.length - 3)))
      match parseDateDMY4 '-' (parts.getD 0 []) with
      | none => none
      | some dt => some (⟨some dt, narr, wd.1, wd.2, balance⟩, balance)

/-- The main loop of `parse_axis_bank_format2`: thread `last_balance` through
the assembled lines, updating it only when a row is emitted. -/
def axisF2Loop (last : Option ℚ) : List (List Char) → List Row
  | [] => []
  | l :: ls =>
    if patAxisF2 l then
      match axisF2Line last l with
      | some rb => rb.1 :: axisF2Loop (some rb.2) ls
      | none => axisF2Loop last ls
    else axisF2Loop last ls

/-- `parse_axis_bank_format2` (lines 198-227). The opening-balance conversion
`float(group(1))` sits outside any `try`, so a matched but unparseable token
raises out of the parser: that is the `none` result. -/
def parse_axis_bank_format2 (text : String) : Option (List Row) :=
  let lines := assemble (fun _ => false) patAxisF2
    (fun s => containsSub s pageBreakMark || containsSub s "Tran Date Chq No Particulars".toList)
    [] (splitNL text.toList)
  match findOpeningTok text.toList with
  | none => some (axisF2Loop none lines)
  | some tok =>
    match pyFloatQ (decomma tok) with
    | some b => some (axisF2Loop (some b) lines)
    | none => none

/-- The debit/credit inference inside `process_block` of `parse_yes_bank`
(lines 1462-1485): three-way balance comparison with a keyword fallback for
the first transaction; result is `(withdrawal, deposit)`. -/
def yesBankInfer (prevBalance : Option ℚ) (amount currentBalance : ℚ)
    (narr : List Char) : ℚ × ℚ :=
  match prevBalance with
  | some pb =>
    if qblt (qadd pb eps1000) currentBalance then (0, amount)
    else if qblt currentBalance (qsub pb eps1000) then (amount, 0)
    else if qblt 0 amount then (amount, 0) else (0, 0)
  | none => if containsSub (upperL narr) "ACH DR".toList then (amount, 0) else (0, amount)

/-- `parse_au_bank` line-start regex `^\d{2}\s\w{3}\s\d{4}`. -/
def patAU : List Char → Bool
  | a :: b :: c :: d :: e :: f :: g :: h :: i :: j :: k :: _ =>
    a.isDigit && b.isDigit && isPyWS c && isWordChar d && isWordChar e && isWordChar f &&
      isPyWS g && h.isDigit && i.isDigit && j.isDigit && k.isDigit
  | _ => false

/-- The header/footer `continue` guards of `parse_au_bank`. -/
def auPre (s : List Char) : Bool :=
  containsSub s "Customer ID".toList || containsSub s "Account Number".toList ||
    containsSub s "Statement Period".toList

/-- Field extraction for one assembled `parse_au_bank` block. -/
def auLine (l : List Char) : Option Row :=
  if ¬ patAU l then none else
  let parts := pyWords l
  if parts.length < 6 then none else
  match parseDateDMonY (parts.getD 0 []) (parts.getD 1 []) (parts.getD 2 []) with
  | none => none
  | some dt =>
    let balTok := parts.getD (parts.length - 1) []
    let credTok := parts.getD (parts.length - 2) []
    let debTok := parts.getD (parts.length - 3) []
    let narr := pyStrip (joinSpace ((parts.drop 6).take (parts.length - 3 - 6)))
    some ⟨some dt, narr, cleanMoneyDashTo0 debTok, cleanMoneyDashTo0 credTok,
      cleanMoneyDashTo0 balTok⟩

/-- `parse_au_bank` (lines 229-257). -/
def parse_au_bank (text : String) : List Row :=
  (assemble auPre patAU
    (fun s => containsSub s pageBreakMark || containsSub s "Description/Narration".toList)
    [] (splitNL text.toList)).filterMap auLine

/-- Character class `[\d,.-]` of the `parse_bank_of_baroda` regex. -/
def bobCl (c : Char) : Bool :=
  c.isDigit || c = ',' || c = '.' || c = '-'

/-- Satisfiability at line start of the `parse_bank_of_baroda` regex
`^([\d,.-]+?)(\d+)\s+(\d{2}-\d{2}-\d{4})`: the two leading groups must
exactly cover the maximal `[\d,.-]` run (whitespace follows), so a match
exists iff that run has length ≥ 2, ends in a digit, and is followed by
whitespace and a `\d{2}-\d{2}-\d{4}` shape. -/
def bobMatch (cs : List Char) : Bool :=
  let r := cs.takeWhile bobCl
  let rest := cs.dropWhile bobCl
  2 ≤ r.length && (r.getLastD ' ').isDigit &&
    ¬ (rest.takeWhile isPyWS).isEmpty && dateShape10 '-' (rest.dropWhile isPyWS)

/-- The `continue` guard of `parse_bank_of_baroda`. -/
def bobPre (s : List Char) : Bool :=
  containsSub s "Opening Balance".toList || s.isEmpty

/-- Field extraction for one assembled `parse_bank_of_baroda` block. -/
def bobLine (l : List Char) : Option Row :=
  if ¬ bobMatch l then none else
  let parts := pyWords l
  if parts.length < 6 then none else
  match parseDateDMY4 '-' (parts.getD 2 []) with
  | none => none
  | some dt =>
    some ⟨some dt, pyStrip (joinSpace ((parts.drop 4).take (parts.length - 2 - 4))),
      cleanMoneyDashTo0 (parts.getD (parts.length - 2) []),
      cleanMoneyDashTo0 (parts.getD (parts.length - 1) []),
      cleanMoneyDashTo0 (parts.getD 0 [])⟩

/-- `parse_bank_of_baroda` (lines 293-322). -/
def parse_bank_of_baroda (text : String) : List Row :=
  (assemble bobPre bobMatch
    (fun s => containsSub s pageBreakMark || containsSub s "Description Cheque".toList)
    [] (splitNL text.toList)).filterMap bobLine

/-- Regex `\b` on the left: start of string or previous char not `\w`. -/
def leftBdry : Option Char → Bool
  | none => true
  | some p => ¬ isWordChar p

/-- Regex `\b` on the right: end of string or next char not `\w`. -/
def rightBdry : List Char → Bool
  | [] => true
  | c :: _ => ¬ isWordChar c

/-- `finditer(r'\b(\d{2}/\d{2}/\d{2})\b', line)`: start positions of all
non-overlapping boundary-delimited date shapes, scanning left to right.
`prev` is the character just before the current position. -/
def findDatesAux (prev : Option Char) : List Char → ℕ → List ℕ
  | [], _ => []
  | c :: rest, pos =>
    if dateShape8 '/' (c :: rest) && leftBdry prev && rightBdry (rest.drop 7) then
      pos :: findDatesAux (some (rest.getD 6 ' ')) (rest.drop 7) (pos + 8)
    else findDatesAux (some c) rest (pos + 1)
termination_by cs _ => cs.length
decreasing_by
  · simp only [List.length_cons, List.length_drop]; omega
  · simp only [List.length_cons]; omega

/-- All `\b\d{2}/\d{2}/\d{2}\b` match positions in a line. -/
def findDates (cs : List Char) : List ℕ :=
  findDatesAux none cs 0

/-- `\.\d{2}` at the start of the list; returns the consumed length 3. -/
def dotPart : List Char → Option ℕ
  | '.' :: a :: b :: _ => if a.isDigit && b.isDigit then some 3 else none
  | _ => none

/-- Greedy `(?:,\d{3})*\.\d{2}` with backtracking: prefer consuming another
`,\d{3}` group when the remainder still matches, otherwise match `\.\d{2}`
here. Returns the total consumed length. -/
def groupsThenDot : List Char → Option ℕ
  | ',' :: a :: b :: c :: rest =>
    if a.isDigit && b.isDigit && c.isDigit then
      match groupsThenDot rest with
      | some n => some (n + 4)
      | none => dotPart (',' :: a :: b :: c :: rest)
    else dotPart (',' :: a :: b :: c :: rest)
  | s => dotPart s

/-- `\d{1,3}` (greedy, `k` digits) then `groupsThenDot`; total match length. -/
def tryAmountK (k : ℕ) (s : List Char) : Option ℕ :=
  let pre := s.take k
  if pre.length = k && pre.all Char.isDigit then (groupsThenDot (s.drop k)).map (· + k) else none

/-- One attempt of `\d{1,3}(?:,\d{3})*\.\d{2}` anchored at the list head,
trying the greedy digit counts 3, 2, 1 in order. -/
def matchAmountLen (s : List Char) : Option ℕ :=
  match tryAmountK 3 s with
  | some n => some n
  | none =>
    match tryAmountK 2 s with
    | some n => some n
    | none => tryAmountK 1 s

/-- `findall(r'(\d{1,3}(?:,\d{3})*\.\d{2})', s)`: leftmost non-overlapping
matches. -/
def findAmounts : List Char → List (List Char)
  | [] => []
  | c :: rest =>
    match matchAmountLen (c :: rest) with
    | some n => (c :: rest).take n :: findAmounts (rest.drop (n - 1))
    | none => findAmounts rest
termination_by s => s.length
decreasing_by
  · simp only [List.length_cons, List.length_drop]; omega
  · simp only [List.length_cons]; omega

/-- `MB\w+` anchored at the list head (the right `\b` is automatic after a
maximal `\w` run); returns the match length. -/
def mbMatchLen : List Char → Option ℕ
  | 'M' :: 'B' :: r =>
    let run := r.takeWhile isWordChar
    if run.isEmpty then none else some (2 + run.length)
  | _ => none

/-- `0{4}\d{12,16}\b` anchored at the list head: four zeros, then a digit run
of length 12-16 whose following character is not a word character. -/
def zerosMatchLen : List Char → Option ℕ
  | '0' :: '0' :: '0' :: '0' :: r =>
    let run := r.takeWhile Char.isDigit
    if 12 ≤ run.length && run.length ≤ 16 && rightBdry (r.drop run.length) then
      some (4 + run.length)
    else none
  | _ => none

/-- `re.sub(r'\b(MB\w+|0{4}\d{12,16})\b', '', s)` scanning loop; `prev` is the
original character before the current position. -/
def subMBAux (prev : Option Char) : List Char → List Char
  | [] => []
  | c :: rest =>
    match (if leftBdry prev then
             (match mbMatchLen (c :: rest) with
              | some n => some n
              | none => zerosMatchLen (c :: rest))
           else none) with
    | some n => subMBAux (some ((c :: rest).getD (n - 1) ' ')) (rest.drop (n - 1))
    | none => c :: subMBAux (some c) rest
termination_by s => s.length
decreasing_by
  · simp only [List.length_cons, List.length_drop]; omega
  · simp only [List.length_cons]; omega

/-- The narration scrub of `parse_hdfc_single_transaction`. -/
def hdfcNarrClean (cs : List Char) : List Char :=
  pyStrip (collapseWS (subMBAux none cs))

/-- Credit-keyword test on the upper-cased narration section
(`['CR', 'CREDIT', 'DEPOSIT', 'TRANSFER CR']`). -/
def hdfcKw (up : List Char) : Bool :=
  containsSub up "CR".toList || containsSub up "CREDIT".toList ||
    containsSub up "DEPOSIT".toList || containsSub up "TRANSFER CR".toList

/-- `float(tok.replace(',', ''))` for tokens produced by the amount regex
(these always parse, so the 0 default is unreachable). -/
def amtToQ (tok : List Char) : ℚ :=
  (pyFloatQ (decomma tok)).getD 0

/-- `parse_hdfc_single_transaction` (lines 83-162): the transaction date is
parsed with `errors="coerce"`, so an invalid calendar date yields a row whose
date is `none` (pandas `NaT`) — the row is still returned. -/
def parse_hdfc_single_transaction (l : List Char) : Option Row :=
  if ¬ dateShape8 '/' l then none else
  let dates := findDates l
  if dates.length < 2 then none else
  let p := dates.getLastD 0
  let amountsSec := pyStrip (l.drop (p + 8))
  let narrSec := pyStrip ((l.drop 8).take (p - 8))
  let amounts := findAmounts amountsSec
  if amounts.length < 2 then none else
  let wdb : ℚ × ℚ × ℚ :=
    if amounts.length = 3 then
      (amtToQ (amounts.getD 0 []), amtToQ (amounts.getD 1 []), amtToQ (amounts.getD 2 []))
    else if amounts.length = 2 then
      let amount := amtToQ (amounts.getD 0 [])
      let bal := amtToQ (amounts.getD 1 [])
      if hdfcKw (upperL narrSec) then (0, amount, bal) else (amount, 0, bal)
    else
      (amtToQ (amounts.getD (amounts.length - 3) []),
       amtToQ (amounts.getD (amounts.length - 2) []),
       amtToQ (amounts.getD (amounts.length - 1) []))
  some ⟨parseDateDMY2 '/' (l.take 8), hdfcNarrClean narrSec, wdb.1, wdb.2.1, wdb.2.2⟩

/-- Header-detection test of `parse_hdfc_bank`. -/
def hdfcHeader (s : List Char) : Bool :=
  containsSub s "Date".toList && containsSub s "Narration".toList &&
    containsSub s "Withdrawal".toList

/-- Transaction-line test `re.match(r'^\d{2}/\d{2}/\d{2}\s', line)`. -/
def patHdfcStart (cs : List Char) : Bool :=
  dateShape8 '/' cs &&
    (match cs.drop 8 with
     | c :: _ => isPyWS c
     | [] => false)

/-- The main loop of `parse_hdfc_bank`: scan for the header, then collect
transaction lines, skipping blank lines and footers. -/
def hdfcLoop (started : Bool) : List (List Char) → List Row
  | [] => []
  | l :: ls =>
    let s := pyStrip l
    if ¬ started then
      (if hdfcHeader s then hdfcLoop true ls else hdfcLoop false ls)
    else if s.isEmpty || containsSub s "HDFC BANK LIMITED".toList ||
        containsSub s "Page No".toList || containsSub s "Statement of account".toList then
      hdfcLoop true ls
    else if patHdfcStart s then
      match parse_hdfc_single_transaction s with
      | some r => r :: hdfcLoop true ls
      | none => hdfcLoop true ls
    else hdfcLoop true ls

/-- `parse_hdfc_bank` (lines 41-81). -/
def parse_hdfc_bank (text : String) : List Row :=
  hdfcLoop false (splitNL text.toList)

/-- The parser ultimately selected by the `parse_bank_statement` router, one
constructor per concrete parser function (plus the no-text and unknown-bank
outcomes). -/
inductive Choice where
  | pnbV2 | pnbV1
  | yesF2 | yesF1
  | unionF4 | unionV3 | unionV2 | unionV1
  | indianV7 | indianV6
  | sbiV3 | sbiV2 | sbiV1
  | dhanlaxmiV2
  | saraswatV6
  | idbiF3 | idbiV4 | idbiF2
  | idfcFirst
  | indianOverseas
  | hdfcF1 | hdfcF2
  | axisF1 | axisF2
  | indusindF2 | indusindF5 | indusindF4 | indusindF3 | indusindF1
  | auF4 | auF3 | auF1
  | iciciF3 | iciciF2 | iciciF1
  | kotakV3 | kotakF2 | kotakV1
  | ucoV2 | ucoV1
  | cbiF3 | cbiF2 | cbiV1
  | punjabSind
  | canaraF2 | canaraV1
  | equitas
  | federal
  | bandhan
  | bobF4 | bobF1 | bobF2
  | boi
  | unknownBank
  | noText
deriving DecidableEq, Repr

/-- PNB format check (router lines 5220-5231). -/
def pnbArm (ct : List Char) : Choice :=
  if containsSub ct "DATEINSTRUMENTIDAMOUNTTYPEBALANCEREMARKS".toList then .pnbV2 else .pnbV1

/-- YES Bank format check (lines 5233-5248). -/
def yesArm (ut : List Char) : Choice :=
  if containsSub ut "TRANSACTION DATE".toList then .yesF2 else .yesF1

/-- Union Bank format checks (lines 5250-5270). -/
def unionArm (ct : List Char) : Choice :=
  if containsSub ct "SIDATEPARTICULARSCHQNUM".toList then .unionF4
  else if containsSub ct "DATEPARTICULARSCHQ.NO.".toList then .unionV3
  else if containsSub ct "S.NODATETRANSACTIONIDREMARKS".toList then .unionV2
  else .unionV1

/-- Indian Bank format check (lines 5272-5283). -/
def indianArm (ct : List Char) : Choice :=
  if containsSub ct "DATETRANSACTIONDETAILSDEBITS".toList then .indianV7 else .indianV6

/-- SBI format checks (lines 5285-5305). -/
def sbiArm (ut ct : List Char) : Choice :=
  if containsSub ut "TRANSACTION ACCOUNTS".toList && containsSub ut "LOAN ACCOUNTS".toList then .sbiV3
  else if containsSub ct "POSTDATEVALUEDATEDESCRIPTIONCHEQUENO/REFERENCE".toList then .sbiV2
  else .sbiV1

/-- IDBI format checks (lines 5315-5333). -/
def idbiArm (ct : List Char) : Choice :=
  if containsSub ct "S.NOTXNDATEVALUEDATEDESCRIPTION".toList then .idbiF3
  else if containsSub ct "BALANCE(INR)AMOUNT(INR)".toList then .idbiV4
  else .idbiF2

/-- HDFC format checks (lines 5343-5364); the no-header default is the
Format 1 parser again. -/
def hdfcArm (ut ct : List Char) : Choice :=
  if (containsSub ut "VALUE".toList && containsSub ut "DT".toList) &&
      (containsSub ut "CHQ".toList || containsSub ut "REF".toList) then .hdfcF1
  else if containsSub ct "CHQ./REF.NO.VALUEDT".toList then .hdfcF2
  else .hdfcF1

/-- Axis format checks (lines 5367-5379); with no header match, Format 1 is
run on the full text and Format 2 is the fallback when it returns no rows. -/
def axisArm (ct : List Char) (t : String) : Choice :=
  if containsSub ct "S.NOTRANSACTION".toList then .axisF1
  else if containsSub ct "TRANDATECHQNO".toList then .axisF2
  else if (parse_axis_bank_format1 t).isEmpty then .axisF2 else .axisF1

/-- IndusInd format checks (lines 5381-5405). -/
def indusindArm (ut ct : List Char) : Choice :=
  if containsSub ct "FINSENSESECURITIES".toList then .indusindF2
  else if containsSub ct "BANKREFERENCEVALUEDATETRANSACTION".toList then .indusindF5
  else if containsSub ct "CHQ./REF.NOWITHDRAWALDEPOSITBALANCE".toList then .indusindF4
  else if containsSub (collapseWS ut) "DATE TYPE DESCRIPTION DEBIT CREDIT BALANCE".toList then .indusindF3
  else .indusindF1

/-- AU format checks (lines 5408-5441); with no header match, Format 1 is run
on the full text and Format 4 is the fallback when it returns no rows. -/
def auArm (ut ct : List Char) (t : String) : Choice :=
  if (containsSub ut "TRANSACTION".toList && containsSub ut "VALUE DATE".toList) ||
      containsSub ut "DESCRIPTION/NARRATION".toList ||
      (containsSub ut "ACCOUNT STATEMENT".toList && containsSub ut "AU SMALL FINANCE BANK".toList) then .auF4
  else if containsSub ct "TXNDATEVALUE".toList then .auF3
  else if (parse_au_bank t).isEmpty then .auF4 else .auF1

/-- ICICI format checks (lines 5444-5461). -/
def iciciArm (ut ct : List Char) : Choice :=
  if containsSub ut "DATE DESCRIPTION AMOUNT TYPE".toList then .iciciF3
  else if containsSub ct "SNO.VALUEDATETRANSACTIONDATE".toList then .iciciF2
  else .iciciF1

/-- Kotak format checks (lines 5463-5482). -/
def kotakArm (ct : List Char) : Choice :=
  if containsSub ct "DATENARRATIONCHQ/REFNOWITHDRAWAL(DR)/DEPOSIT(CR)BALANCE".toList then .kotakV3
  else if containsSub ct "DATENARRATIONCHQ/REFNO.".toList then .kotakF2
  else .kotakV1

/-- UCO format check (lines 5484-5495). -/
def ucoArm (ct : List Char) : Choice :=
  if containsSub ct "DATEPARTICULARSCHQ.NO.".toList then .ucoV2 else .ucoV1

/-- Central Bank of India format checks (lines 5497-5518); both the v1 header
match and the final fallback run the v1 parser. -/
def cbiArm (ct : List Char) : Choice :=
  if containsSub ct "DATEPARTICULARSWITHDRAWALS".toList then .cbiF3
  else if containsSub ct "POSTDATEVALUEDATE".toList then .cbiF2
  else .cbiV1

/-- Canara format check (lines 5524-5535); the needle "Txn Date Value Date"
keeps its source casing even though it is tested against upper-cased text. -/
def canaraArm (ut : List Char) : Choice :=
  if containsSub ut "Txn Date Value Date".toList then .canaraF2 else .canaraV1

/-- Bank of Baroda format checks (lines 5551-5569); without the Format 4
header, Format 1 is run on the full text and Format 2 is the fallback when it
returns no rows. -/
def bobArm (ut : List Char) (t : String) : Choice :=
  if containsSub ut "WITHDRAWAL (DR) DEPOSIT (CR) BALANCE".toList then .bobF4
  else if (parse_bank_of_baroda t).isEmpty then .bobF2 else .bobF1

/-- The `if/elif` chain of `parse_bank_statement` (lines 5220-5586) over the
derived signals: `uf` the upper-cased filename, `ut` the upper-cased first
1500 characters of the text, `ct` that prefix with all whitespace removed,
and `t` the full text (consulted only by the three empty-result fallback
arms). -/
def routeAux (uf ut ct : List Char) (t : String) : Choice :=
  if containsSub uf "PUNJAB NATIONAL".toList || containsSub uf "PNB".toList then pnbArm ct
  else if containsSub uf "YES BANK".toList then yesArm ut
  else if containsSub uf "UNION".toList then unionArm ct
  else if containsSub uf "INDIAN BANK".toList then indianArm ct
  else if containsSub uf "SBI".toList then sbiArm ut ct
  else if containsSub uf "DHANLAXMI".toList then .dhanlaxmiV2
  else if containsSub uf "SARASWAT".toList then .saraswatV6
  else if containsSub uf "IDBI".toList then idbiArm ct
  else if containsSub uf "IDFCFIRST".toList then .idfcFirst
  else if containsSub uf "INDIAN OVERSEAS".toList then .indianOverseas
  else if containsSub uf "HDFC".toList then hdfcArm ut ct
  else if containsSub uf "AXIS".toList then axisArm ct t
  else if containsSub uf "INDUSIND".toList || containsSub ct "INDB".toList then indusindArm ut ct
  else if containsSub uf "AU".toList then auArm ut ct t
  else if containsSub uf "ICICI".toList then iciciArm ut ct
  else if containsSub uf "KOTAK".toList || containsSub ct "KKBK".toList then kotakArm ct
  else if containsSub uf "UCO".toList then ucoArm ct
  else if containsSub uf "CENTRAL BANK".toList then cbiArm ct
  else if containsSub uf "PUNJAB & SIND".toList then .punjabSind
  else if containsSub uf "CANARA".toList then canaraArm ut
  else if containsSub uf "EQUITAS".toList then .equitas
  else if containsSub uf "FEDERAL BANK".toList then .federal
  else if containsSub uf "BANDHAN".toList then .bandhan
  else if containsSub uf "BARODA".toList then bobArm ut t
  else if containsSub uf "BANK OF INDIA".toList then .boi
  else .unknownBank

/-- The routing decision of `parse_bank_statement` (lines 5197-5586): which
parser the router invokes for a given filename and extracted text. `noText`
models the `if not text` early return. -/
def routeChoice (filename text : String) : Choice :=
  if text.isEmpty then .noText
  else
    routeAux (upperL filename.toList) (upperL (text.toList.take 1500))
      (remWS (upperL (text.toList.take 1500))) text

/-- Every filename substring the router tests, in source order. -/
def bankNeedles : List String :=
  ["PUNJAB NATIONAL", "PNB", "YES BANK", "UNION", "INDIAN BANK", "SBI", "DHANLAXMI",
   "SARASWAT", "IDBI", "IDFCFIRST", "INDIAN OVERSEAS", "HDFC", "AXIS", "INDUSIND", "AU",
   "ICICI", "KOTAK", "UCO", "CENTRAL BANK", "PUNJAB & SIND", "CANARA", "EQUITAS",
   "FEDERAL BANK", "BANDHAN", "BARODA", "BANK OF INDIA"]

/-- Does the choice invoke the IndusInd parser family? -/
def indusFamily : Choice → Bool
  | .indusindF1 | .indusindF2 | .indusindF3 | .indusindF4 | .indusindF5 => true
  | _ => false

/-- Does the choice invoke the Kotak parser family? -/
def kotakFamily : Choice → Bool
  | .kotakV3 | .kotakF2 | .kotakV1 => true
  | _ => false

/-- Abstract model of the external PDF library (`pypdf`): reading the byte
buffer either raises (`failure`) or yields a document with an encryption flag
and per-page extracted text. -/
inductive PdfInput where
  | failure : PdfInput
  | doc : Bool → List String → PdfInput
deriving DecidableEq

/-- `extract_text_from_pdf` (lines 8-36): `none` models the `return None`
paths — the encrypted check and the catch-all `except`. On success the page
texts are concatenated with the page-break sentinel after each page. -/
def extract_text_from_pdf (_filename : String) (input : PdfInput) : Option String :=
  match input with
  | .failure => none
  | .doc encrypted pages =>
    if encrypted then none
    else some (String.join (pages.map (fun p => p ++ "\n--- PAGE BREAK ---\n")))

/-- Run the routed parser on the full text. `some rows` is the DataFrame the
source returns; `none` means the embedding does not determine the result
(a parser outside the embedded subset, or `parse_axis_bank_format2` raising
on a malformed opening balance). -/
def runChoice : Choice → String → Option (List Row)
  | .noText, _ => some []
  | .unknownBank, _ => some []
  | .hdfcF1, t => some (parse_hdfc_bank t)
  | .axisF1, t => some (parse_axis_bank_format1 t)
  | .axisF2, t => parse_axis_bank_format2 t
  | .auF1, t => some (parse_au_bank t)
  | .bobF1, t => some (parse_bank_of_baroda t)
  | _, _ => none

/-- End-to-end `parse_bank_statement` (lines 5197-5586): extract text, fall
back to an empty DataFrame when extraction fails or yields no text, otherwise
route and run. -/
def parse_bank_statement (filename : String) (input : PdfInput) : Option (List Row) :=
  match extract_text_from_pdf filename input with
  | none => some []
  | some text => runChoice (routeChoice filename text) text

/-- The opening balance `parse_axis_bank_format2` extracts from the text:
`some b` exactly when the regex matches and the token converts. -/
def axisF2OpeningBal (text : String) : Option ℚ :=
  (findOpeningTok text.toList).bind (fun tok => pyFloatQ (decomma tok))

/-- Scenario A input: prior balance 20,000.00 and a single-amount line with
amount 5,000.00 and balance 25,000.00. -/
def scenarioAText : String :=
  "OPENING BALANCE 20,000.00\n01-04-2024 SALARY CREDIT 5,000.00 25,000.00"

/-- A statement whose second row repeats the running balance (Δ = 0) while its
amount token is 7.00: the balance-difference invariant fails on it. -/
def axisF2CexC1Text : String :=
  "OPENING BALANCE 100.00\n01-01-2024 AA 50.00 150.00\n02-01-2024 BB 7.00 150.00"

/-- An arithmetically consistent statement (each balance differs from the
previous by exactly the row amount). -/
def axisF2WitC1Text : String :=
  "OPENING BALANCE 100.00\n01-01-2024 AA 50.00 150.00\n02-01-2024 BB 30.00 120.00"

/-- A statement whose second row has Δ = 0 and a non-zero amount token. -/
def axisF2CexC2Text : String :=
  "OPENING BALANCE 100.00\n01-01-2024 FOO 50.00 150.00\n02-01-2024 FEE 5.00 150.00"

/-- Another statement with a Δ = 0 second row (for a concrete witness). -/
def axisF2WitC2Text : String :=
  "OPENING BALANCE 200.00\n01-01-2024 PQR 40.00 240.00\n02-01-2024 STU 2.00 240.00"

/-- An HDFC statement whose transaction line has the `dd/mm/yy` shape but an
impossible calendar date (`99/99/99`). -/
def hdfcNaTText : String :=
  "Date Narration Withdrawal Amt. Deposit Amt. Closing Balance\n99/99/99 FOO 99/99/99 100.00 200.00"

/-- An Axis format-1 line whose debit and credit tokens carry a leading minus
sign. -/
def axisF1CexText : String := "1 01/01/2024 X N -5.00 -3.00 100.00"

/-- An Axis format-1 line with plain unsigned money tokens. -/
def axisF1WitText : String := "1 01/01/2024 X N 5.00 3.00 100.00"

/-- 1500 filler characters: a text prefix that matches no router fingerprint. -/
def fillerZ : String := String.mk (List.replicate 1500 'Z')

/-- Extracted text whose 1500-character prefix is all filler and whose tail
contains one valid Axis format-1 transaction line. -/
def prefixCexTextA : String := fillerZ ++ "\n1 01/01/2024 X N 5.00 3.00 100.00"

/-- Extracted text that is exactly the 1500 filler characters. -/
def prefixCexTextB : String := fillerZ

/-- Texts equal on the first 1500 characters, differing after. -/
def prefixWitTextA : String := fillerZ ++ "A"

/-- Texts equal on the first 1500 characters, differing after. -/
def prefixWitTextB : String := fillerZ ++ "B"

theorem qadd_eq (a b : ℚ) : qadd a b = a + b := by
  unfold qadd
  conv_rhs => rw [← Rat.num_div_den a, ← Rat.num_div_den b]
  rw [Rat.mkRat_eq_div]
  push_cast
  rw [div_add_div _ _ (show ((a.den : ℚ)) ≠ 0 by positivity) (show ((b.den : ℚ)) ≠ 0 by positivity)]
  ring_nf

theorem qsub_eq (a b : ℚ) : qsub a b = a - b := by
  unfold qsub
  conv_rhs => rw [← Rat.num_div_den a, ← Rat.num_div_den b]
  rw [Rat.mkRat_eq_div]
  push_cast
  rw [div_sub_div _ _ (show ((a.den : ℚ)) ≠ 0 by positivity) (show ((b.den : ℚ)) ≠ 0 by positivity)]
  ring_nf

theorem qneg_eq (a : ℚ) : qneg a = -a := by
  unfold qneg
  conv_rhs => rw [← Rat.num_div_den a]
  rw [Rat.mkRat_eq_div]
  push_cast
  ring

theorem qblt_iff (a b : ℚ) : qblt a b = true ↔ a < b := by
  unfold qblt
  have ha : (0 : ℚ) < (a.den : ℚ) := by positivity
  have hb : (0 : ℚ) < (b.den : ℚ) := by positivity
  have h1 : a < b ↔ (a.num : ℚ) / (a.den : ℚ) < (b.num : ℚ) / (b.den : ℚ) := by
    rw [Rat.num_div_den, Rat.num_div_den]
  rw [h1, div_lt_div_iff₀ ha hb, decide_eq_true_eq]
  exact_mod_cast Iff.rfl

theorem eps1000_eq : eps1000 = 1 / 1000 := by
  unfold eps1000
  rw [Rat.mkRat_eq_div]
  norm_num

theorem mkRat_nonneg_of_num {n : ℤ} (h : 0 ≤ n) (d : ℕ) : 0 ≤ mkRat n d := by
  rw [Rat.mkRat_eq_div]
  positivity

theorem mantissaQ_nonneg (ds1 ds2 : List Char) : 0 ≤ mantissaQ ds1 ds2 := by
  unfold mantissaQ
  exact mkRat_nonneg_of_num (Int.ofNat_nonneg _) _

theorem qdivPow10_nonneg (m : ℚ) (k : ℕ) (h : 0 ≤ m) : 0 ≤ qdivPow10 m k :=
  mkRat_nonneg_of_num (Rat.num_nonneg.mpr h) _

theorem qmulPow10_nonneg (m : ℚ) (k : ℕ) (h : 0 ≤ m) : 0 ≤ qmulPow10 m k :=
  mkRat_nonneg_of_num (mul_nonneg (Rat.num_nonneg.mpr h) (Int.ofNat_nonneg _)) _

set_option maxHeartbeats 2000000 in
theorem expTail_nonneg (m : ℚ) (hm : 0 ≤ m) (s : List Char) (q : ℚ)
    (h : expTail m s = some q) : 0 ≤ q := by
  unfold expTail at h
  split at h
  all_goals split at h
  all_goals first
    | (injection h with h; subst h;
       first
         | exact qdivPow10_nonneg _ _ hm
         | exact qmulPow10_nonneg _ _ hm)
    | simp at h

theorem expPart_nonneg (m : ℚ) (hm : 0 ≤ m) (s : List Char) (q : ℚ)
    (h : expPart m s = some q) : 0 ≤ q := by
  unfold expPart at h
  split at h
  · exact (Option.some_inj.mp h) ▸ hm
  · exact expTail_nonneg m hm _ q h
  · exact expTail_nonneg m hm _ q h
  · exact absurd h (by simp)

theorem pyFloatMag_nonneg (s : List Char) (q : ℚ) (h : pyFloatMag s = some q) : 0 ≤ q := by
  simp only [pyFloatMag] at h
  split at h
  · split at h
    · exact absurd h (by simp)
    · exact expPart_nonneg _ (mantissaQ_nonneg _ _) _ _ h
  · split at h
    · exact absurd h (by simp)
    · exact expPart_nonneg _ (mantissaQ_nonneg _ _) _ _ h

theorem pyFloatQ_nonneg (s : List Char) (hhead : s.headD ' ' ≠ '-') (q : ℚ)
    (h : pyFloatQ s = some q) : 0 ≤ q := by
  unfold pyFloatQ at h
  split at h
  · simp at hhead
  · exact pyFloatMag_nonneg _ _ h
  · exact pyFloatMag_nonneg _ _ h

theorem pyStrip_subset (l : List Char) (c : Char) (hc : c ∈ pyStrip l) : c ∈ l := by
  unfold pyStrip at hc
  rw [List.mem_reverse] at hc
  have h1 := (List.dropWhile_sublist _).subset hc
  rw [List.mem_reverse] at h1
  exact (List.dropWhile_sublist _).subset h1

theorem decomma_subset (l : List Char) (c : Char) (hc : c ∈ decomma l) : c ∈ l :=
  (List.mem_filter.mp hc).1

theorem headD_mem {l : List Char} (h : l ≠ []) (d : Char) : l.headD d ∈ l := by
  cases l with
  | nil => exact absurd rfl h
  | cons a t => exact List.mem_cons_self a t

theorem splitNLAux_chars (cs : List Char) :
    ∀ (acc l : List Char), l ∈ splitNLAux cs acc → ∀ c ∈ l, c ∈ cs ∨ c ∈ acc := by
  induction cs with
  | nil =>
    intro acc l hl c hc
    simp only [splitNLAux, List.mem_singleton] at hl
    subst hl
    exact Or.inr (List.mem_reverse.mp hc)
  | cons d cs ih =>
    intro acc l hl c hc
    simp only [splitNLAux] at hl
    by_cases hd : d = '\n'
    · rw [if_pos hd] at hl
      rcases List.mem_cons.mp hl with h1 | h1
      · subst h1
        exact Or.inr (List.mem_reverse.mp hc)
      · rcases ih [] l h1 c hc with h | h
        · exact Or.inl (List.mem_cons_of_mem _ h)
        · exact absurd h (List.not_mem_nil c)
    · rw [if_neg hd] at hl
      rcases ih (d :: acc) l hl c hc with h | h
      · exact Or.inl (List.mem_cons_of_mem _ h)
      · rcases List.mem_cons.mp h with h2 | h2
        · subst h2
          exact Or.inl (List.mem_cons_self _ _)
        · exact Or.inr h2

theorem splitWSAux_chars (cs : List Char) :
    ∀ (acc w : List Char), w ∈ splitWSAux cs acc → ∀ c ∈ w, c ∈ cs ∨ c ∈ acc := by
  induction cs with
  | nil =>
    intro acc w hw c hc
    simp only [splitWSAux] at hw
    split at hw
    · exact absurd hw (List.not_mem_nil w)
    · simp only [List.mem_singleton] at hw
      subst hw
      exact Or.inr (List.mem_reverse.mp hc)
  | cons d cs ih =>
    intro acc w hw c hc
    simp only [splitWSAux] at hw
    split at hw
    · split at hw
      · rcases ih [] w hw c hc with h | h
        · exact Or.inl (List.mem_cons_of_mem _ h)
        · exact absurd h (List.not_mem_nil c)
      · rcases List.mem_cons.mp hw with h1 | h1
        · subst h1
          exact Or.inr (List.mem_reverse.mp hc)
        · rcases ih [] w h1 c hc with h | h
          · exact Or.inl (List.mem_cons_of_mem _ h)
          · exact absurd h (List.not_mem_nil c)
    · rcases ih (d :: acc) w hw c hc with h | h
      · exact Or.inl (List.mem_cons_of_mem _ h)
      · rcases List.mem_cons.mp h with h2 | h2
        · subst h2
          exact Or.inl (List.mem_cons_self _ _)
        · exact Or.inr h2

theorem pyWords_chars (cs w : List Char) (hw : w ∈ pyWords cs) (c : Char) (hc : c ∈ w) :
    c ∈ cs := by
  rcases splitWSAux_chars cs [] w hw c hc with h | h
  · exact h
  · exact absurd h (List.not_mem_nil c)

theorem splitNL_chars (cs l : List Char) (hl : l ∈ splitNL cs) (c : Char) (hc : c ∈ l) :
    c ∈ cs := by
  rcases splitNLAux_chars cs [] l hl c hc with h | h
  · exact h
  · exact absurd h (List.not_mem_nil c)

theorem assemble_chars (pre pat jd : List Char → Bool) (P : Char → Prop) (hsp : P ' ') :
    ∀ (inLines revAcc : List (List Char)),
      (∀ l ∈ inLines, ∀ c ∈ l, P c) → (∀ l ∈ revAcc, ∀ c ∈ l, P c) →
      ∀ l ∈ assemble pre pat jd revAcc inLines, ∀ c ∈ l, P c := by
  intro inLines
  induction inLines with
  | nil =>
    intro revAcc _ hacc l hl c hc
    simp only [assemble] at hl
    exact hacc l (List.mem_reverse.mp hl) c hc
  | cons l0 ls ih =>
    intro revAcc hin hacc l hl c hc
    have hl0 : ∀ c ∈ pyStrip l0, P c :=
      fun c hc => hin l0 (List.mem_cons_self _ _) c (pyStrip_subset _ _ hc)
    have hin2 : ∀ l ∈ ls, ∀ c ∈ l, P c := fun l h => hin l (List.mem_cons_of_mem _ h)
    rcases revAcc with _ | ⟨h0, t⟩
    · simp only [assemble] at hl
      split at hl
      · exact ih [] hin2 (by simp) l hl c hc
      · refine ih [pyStrip l0] hin2 ?_ l hl c hc
        intro l1 hl1 c1 hc1
        rw [List.mem_singleton] at hl1
        subst hl1
        exact hl0 c1 hc1
    · simp only [assemble] at hl
      split at hl
      · exact ih (h0 :: t) hin2 hacc l hl c hc
      · split at hl
        · refine ih (pyStrip l0 :: h0 :: t) hin2 ?_ l hl c hc
          intro l1 hl1 c1 hc1
          rcases List.mem_cons.mp hl1 with h | h
          · subst h; exact hl0 c1 hc1
          · exact hacc l1 h c1 hc1
        · split at hl
          · exact ih (h0 :: t) hin2 hacc l hl c hc
          · refine ih ((h0 ++ ' ' :: pyStrip l0) :: t) hin2 ?_ l hl c hc
            intro l1 hl1 c1 hc1
            rcases List.mem_cons.mp hl1 with h | h
            · subst h
              rcases List.mem_append.mp hc1 with h2 | h2
              · exact hacc h0 (List.mem_cons_self _ _) c1 h2
              · rcases List.mem_cons.mp h2 with h3 | h3
                · subst h3; exact hsp
                · exact hl0 c1 h3
            · exact hacc l1 (List.mem_cons_of_mem _ h) c1 hc1

theorem getD_mem_or_nil (l : List (List Char)) (i : ℕ) :
    l.getD i [] ∈ l ∨ l.getD i [] = [] := by
  rw [List.getD_eq_getD_get?]
  cases h : l.get? i with
  | none => exact Or.inr rfl
  | some x => exact Or.inl (by simpa using List.get?_mem h)

theorem cleanMoneyEmptyTo0_nonneg (tok : List Char) (h : '-' ∉ tok) :
    0 ≤ cleanMoneyEmptyTo0 tok := by
  simp only [cleanMoneyEmptyTo0]
  by_cases hnil : pyStrip (decomma tok) = []
  · rw [hnil, if_pos rfl]
    have : (pyFloatQ ['0']).getD 0 = 0 := by decide
    rw [this]
  · rw [if_neg hnil]
    cases hq : pyFloatQ (pyStrip (decomma tok)) with
    | none => simp
    | some q =>
      simp only [Option.getD_some]
      refine pyFloatQ_nonneg _ ?_ q hq
      intro hd
      exact h (decomma_subset _ _ (pyStrip_subset _ _ (hd ▸ headD_mem hnil ' ')))

theorem cleanMoneyDashTo0_nonneg (tok : List Char)
    (hhead : (pyStrip (decomma tok)).headD ' ' ≠ '-') : 0 ≤ cleanMoneyDashTo0 tok := by
  simp only [cleanMoneyDashTo0]
  by_cases hd : pyStrip (decomma tok) = ['-']
  · rw [hd] at hhead
    exact absurd rfl hhead
  · rw [if_neg hd]
    cases hq : pyFloatQ (pyStrip (decomma tok)) with
    | none => simp
    | some q =>
      simp only [Option.getD_some]
      exact pyFloatQ_nonneg _ hhead q hq

theorem cleanMoneyDashTo0_keeps (tok : List Char) (q : ℚ)
    (h : pyFloatQ (pyStrip (decomma tok)) = some q) : cleanMoneyDashTo0 tok = q := by
  simp only [cleanMoneyDashTo0]
  by_cases hd : pyStrip (decomma tok) = ['-']
  · rw [hd] at h
    have : pyFloatQ ['-'] = none := by decide
    rw [this] at h
    exact absurd h (by simp)
  · rw [if_neg hd, h]
    rfl

theorem axisF1Line_money (l : List Char) (r : Row) (h : axisF1Line l = some r) :
    ∃ wt dt : List Char,
      (wt ∈ pyWords l ∨ wt = []) ∧ (dt ∈ pyWords l ∨ dt = []) ∧
      r.withdrawal = cleanMoneyEmptyTo0 wt ∧ r.deposit = cleanMoneyEmptyTo0 dt := by
  simp only [axisF1Line] at h
  split at h
  · exact absurd h (by simp)
  · split at h
    · exact absurd h (by simp)
    · split at h
      · exact absurd h (by simp)
      · injection h with h
        subst h
        exact ⟨_, _, getD_mem_or_nil _ _, getD_mem_or_nil _ _, rfl, rfl⟩

/-- C4: the claim fails as stated (a `-`-signed token propagates its sign into
the emitted row, see the counterexample); amended: rows are non-negative
whenever the input text contains no `-` character, and the dash-aware money
normalizer is non-negative on any token whose cleaned form does not start
with `-`. -/
theorem c4_amounts_nonneg_amended :
    (∀ text : String, '-' ∉ text.toList →
      ∀ r ∈ parse_axis_bank_format1 text, 0 ≤ r.withdrawal ∧ 0 ≤ r.deposit) ∧
    (∀ tok : List Char, (pyStrip (decomma tok)).headD ' ' ≠ '-' →
      0 ≤ cleanMoneyDashTo0 tok) := by
  constructor
  · intro text hminus r hr
    simp only [parse_axis_bank_format1] at hr
    rw [List.mem_filterMap] at hr
    obtain ⟨l, hl, hline⟩ := hr
    have hchar : ∀ c ∈ l, c ≠ '-' := by
      refine assemble_chars _ _ _ (fun c => c ≠ '-') (by decide) (splitNL text.toList) []
        ?_ (by simp) l hl
      intro l1 hl1 c1 hc1 heq
      subst heq
      exact hminus (splitNL_chars _ _ hl1 _ hc1)
    obtain ⟨wt, dt, hwt, hdt, hw, hd⟩ := axisF1Line_money l r hline
    constructor
    · rw [hw]
      rcases hwt with h | h
      · exact cleanMoneyEmptyTo0_nonneg wt (fun hmem => hchar '-' (pyWords_chars _ _ h _ hmem) rfl)
      · subst h
        exact cleanMoneyEmptyTo0_nonneg [] (by simp)
    · rw [hd]
      rcases hdt with h | h
      · exact cleanMoneyEmptyTo0_nonneg dt (fun hmem => hchar '-' (pyWords_chars _ _ h _ hmem) rfl)
      · subst h
        exact cleanMoneyEmptyTo0_nonneg [] (by simp)
  · intro tok htok
    exact cleanMoneyDashTo0_nonneg tok htok

/-- C4 counterexample: on a format-1 Axis line whose debit and credit tokens
are `-5.00` and `-3.00`, the returned row has a negative withdrawal and a
negative deposit. -/
theorem c4_negative_amount_cex :
    parse_axis_bank_format1 axisF1CexText =
      [⟨some ⟨2024, 1, 1⟩, "N".toList, -5, -3, 100⟩] ∧ ¬ (0 ≤ (-5 : ℚ)) := by
  constructor
  · decide
  · norm_num

/-- C4 witness: the amended theorem applied to a concrete minus-free line and
a concrete plain token. -/
theorem c4_amounts_nonneg_witness :
    (0 ≤ (5 : ℚ) ∧ 0 ≤ (3 : ℚ)) ∧ 0 ≤ cleanMoneyDashTo0 "12.50".toList :=
  ⟨c4_amounts_nonneg_amended.1 axisF1WitText (by decide)
      ⟨some ⟨2024, 1, 1⟩, "N".toList, 5, 3, 100⟩ (by decide),
   c4_amounts_nonneg_amended.2 "12.50".toList (by decide)⟩

theorem qblt_eq_false_iff (a b : ℚ) : qblt a b = false ↔ ¬ a < b := by
  rw [← qblt_iff]
  cases qblt a b <;> simp

theorem inferStep_sum (last : Option ℚ) (a bal : ℚ) :
    (inferStep last a bal).1 + (inferStep last a bal).2 = a := by
  cases last with
  | none => simp [inferStep]
  | some lb =>
    simp only [inferStep]
    split <;> simp

theorem axisF2Line_spec (last : Option ℚ) (l : List Char) (r : Row) (b : ℚ)
    (h : axisF2Line last l = some (r, b)) :
    r.closing = b ∧
      (r.withdrawal, r.deposit) = inferStep last (r.withdrawal + r.deposit) r.closing := by
  simp only [axisF2Line] at h
  split at h
  · exact absurd h (by simp)
  · split at h
    · exact absurd h (by simp)
    · split at h
      · exact absurd h (by simp)
      · split at h
        · exact absurd h (by simp)
        · injection h with h
          obtain ⟨h1, h2⟩ := Prod.mk.injEq .. |>.mp h
          subst h1
          subst h2
          refine ⟨rfl, ?_⟩
          simp only [inferStep_sum]

theorem axisF2Loop_head (ls : List (List Char)) :
    ∀ (c : ℚ) (r : Row) (rest : List Row), axisF2Loop (some c) ls = r :: rest →
      (r.withdrawal, r.deposit) = inferStep (some c) (r.withdrawal + r.deposit) r.closing := by
  induction ls with
  | nil =>
    intro c r rest h
    exact absurd h (by simp [axisF2Loop])
  | cons l ls ih =>
    intro c r rest h
    simp only [axisF2Loop] at h
    split at h
    · split at h
      · rename_i rb heq
        injection h with h1 _
        subst h1
        have hspec := axisF2Line_spec (some c) l rb.1 rb.2 heq
        exact hspec.2
      · exact ih c r rest h
    · exact ih c r rest h

theorem axisF2Loop_chain (ls : List (List Char)) :
    ∀ last : Option ℚ,
      List.Chain'
        (fun r r2 => (r2.withdrawal, r2.deposit) =
          inferStep (some r.closing) (r2.withdrawal + r2.deposit) r2.closing)
        (axisF2Loop last ls) := by
  induction ls with
  | nil => intro last; simp [axisF2Loop]
  | cons l ls ih =>
    intro last
    simp only [axisF2Loop]
    split
    · split
      · rename_i rb heq
        refine List.chain'_cons'.mpr ⟨?_, ih (some rb.2)⟩
        intro r2 hr2
        have hspec := axisF2Line_spec last l rb.1 rb.2 heq
        cases hrest : axisF2Loop (some rb.2) ls with
        | nil => rw [hrest] at hr2; exact absurd hr2 (by simp)
        | cons r0 t =>
          rw [hrest] at hr2
          simp only [List.head?_cons, Option.mem_def, Option.some.injEq] at hr2
          subst hr2
          have := axisF2Loop_head ls rb.2 r0 t hrest
          rw [hspec.1]
          exact this
      · exact ih last
    · exact ih last

theorem parse_axis_bank_format2_chain (text : String) (rows : List Row)
    (hp : parse_axis_bank_format2 text = some rows) :
    List.Chain'
      (fun r r2 => (r2.withdrawal, r2.deposit) =
        inferStep (some r.closing) (r2.withdrawal + r2.deposit) r2.closing) rows := by
  simp only [parse_axis_bank_format2] at hp
  split at hp
  · injection hp with hp
    subst hp
    exact axisF2Loop_chain _ none
  · split at hp
    · injection hp with hp
      subst hp
      exact axisF2Loop_chain _ _
    · exact absurd hp (by simp)

/-- C1: the claim fails as stated (a row whose amount token does not equal the
balance difference breaks the inequality, see the counterexample); amended:
for every parsed statement (opening balance available), every consecutive pair
of rows whose balances are arithmetically consistent with the row amount
(`closing[i] = closing[i-1] ± (withdrawal[i]+deposit[i])`, amount
non-negative) satisfies
`|closing[i] - closing[i-1] - deposit[i] + withdrawal[i]| < 0.01`. -/
theorem c1_balance_invariant_amended
    (text : String) (rows : List Row) (hp : parse_axis_bank_format2 text = some rows)
    (b : ℚ) (_hop : axisF2OpeningBal text = some b)
    (i : ℕ) (h1 : i + 1 < rows.length) (r r2 : Row)
    (hr : rows.get ⟨i, Nat.lt_of_succ_lt h1⟩ = r) (hr2 : rows.get ⟨i + 1, h1⟩ = r2)
    (hcons : r2.closing = r.closing + (r2.withdrawal + r2.deposit) ∨
             r2.closing = r.closing - (r2.withdrawal + r2.deposit))
    (hnn : 0 ≤ r2.withdrawal + r2.deposit) :
    |r2.closing - r.closing - r2.deposit + r2.withdrawal| < 1 / 100 := by
  have hchain := parse_axis_bank_format2_chain text rows hp
  have hrel := List.chain'_iff_get.mp hchain i (by omega)
  rw [hr, hr2] at hrel
  by_cases hb : r.closing + 1 / 1000 < r2.closing
  · have hq : qblt (qadd r.closing eps1000) r2.closing = true := by
      rw [qblt_iff, qadd_eq, eps1000_eq]
      exact hb
    simp only [inferStep, hq, if_true] at hrel
    obtain ⟨hw, _⟩ := Prod.mk.injEq .. |>.mp hrel
    rcases hcons with hc | hc <;> (rw [abs_lt]; constructor <;> linarith)
  · have hq : qblt (qadd r.closing eps1000) r2.closing = false := by
      rw [qblt_eq_false_iff, qadd_eq, eps1000_eq]
      exact hb
    simp only [inferStep, hq, Bool.false_eq_true, if_false] at hrel
    obtain ⟨_, hd⟩ := Prod.mk.injEq .. |>.mp hrel
    push_neg at hb
    rcases hcons with hc | hc <;> (rw [abs_lt]; constructor <;> linarith)

/-- C1 counterexample: a parsed statement (opening balance present, per-row
balances present) whose second row has amount token 7.00 and unchanged
balance; the emitted pair violates
`|closing[1] - closing[0] - deposit[1] + withdrawal[1]| < 0.01`. -/
theorem c1_balance_invariant_cex :
    parse_axis_bank_format2 axisF2CexC1Text =
      some [⟨some ⟨2024, 1, 1⟩, "AA".toList, 0, 50, 150⟩,
            ⟨some ⟨2024, 1, 2⟩, "BB".toList, 7, 0, 150⟩] ∧
    axisF2OpeningBal axisF2CexC1Text = some 100 ∧
    ¬ (|(150 : ℚ) - 150 - 0 + 7| < 1 / 100) := by
  refine ⟨by decide, by decide, ?_⟩
  rw [show (150 : ℚ) - 150 - 0 + 7 = 7 by norm_num]
  rw [abs_of_nonneg (by norm_num : (0 : ℚ) ≤ 7)]
  norm_num

set_option maxRecDepth 8000 in
set_option maxHeartbeats 2000000 in
/-- C1 witness: the amended invariant at a concrete arithmetically consistent
statement. -/
theorem c1_balance_invariant_witness :
    |(120 : ℚ) - 150 - 0 + 30| < 1 / 100 := by
  have hp : parse_axis_bank_format2 axisF2WitC1Text =
      some [⟨some ⟨2024, 1, 1⟩, "AA".toList, 0, 50, 150⟩,
            ⟨some ⟨2024, 1, 2⟩, "BB".toList, 30, 0, 120⟩] := by decide
  have hop : axisF2OpeningBal axisF2WitC1Text = some 100 := by decide
  refine c1_balance_invariant_amended axisF2WitC1Text _ hp 100 hop 0 (by norm_num)
    ⟨some ⟨2024, 1, 1⟩, "AA".toList, 0, 50, 150⟩
    ⟨some ⟨2024, 1, 2⟩, "BB".toList, 30, 0, 120⟩
    rfl rfl ?_ ?_
  · right
    norm_num
  · norm_num

/-- C2: the claim fails as stated (the Δ=0 branch emits
`withdrawal = amount`, not zero, see the counterexample); amended: when a
row's balance equals the previous one within ε = 0.001,
`parse_axis_bank_format2` emits `deposit = 0` and `withdrawal` equal to the
whole extracted amount, and `parse_yes_bank`'s inference emits
`(withdrawal, deposit) = (amount, 0)` for a positive amount and `(0, 0)`
otherwise. -/
theorem c2_equal_balance_amended :
    (∀ (text : String) (rows : List Row), parse_axis_bank_format2 text = some rows →
      ∀ (i : ℕ) (h1 : i + 1 < rows.length) (r r2 : Row),
        rows.get ⟨i, Nat.lt_of_succ_lt h1⟩ = r → rows.get ⟨i + 1, h1⟩ = r2 →
        |r2.closing - r.closing| ≤ 1 / 1000 →
        r2.deposit = 0 ∧ r2.withdrawal = r2.withdrawal + r2.deposit) ∧
    (∀ (pb amount balance : ℚ) (narr : List Char), |balance - pb| ≤ 1 / 1000 →
      yesBankInfer (some pb) amount balance narr =
        if 0 < amount then (amount, 0) else (0, 0)) := by
  constructor
  · intro text rows hp i h1 r r2 hr hr2 habs
    have hchain := parse_axis_bank_format2_chain text rows hp
    have hrel := List.chain'_iff_get.mp hchain i (by omega)
    rw [hr, hr2] at hrel
    have hq : qblt (qadd r.closing eps1000) r2.closing = false := by
      rw [qblt_eq_false_iff, qadd_eq, eps1000_eq]
      have h2 := (abs_le.mp habs).2
      intro hlt
      linarith
    simp only [inferStep, hq, Bool.false_eq_true, if_false] at hrel
    obtain ⟨hw, hd⟩ := Prod.mk.injEq .. |>.mp hrel
    exact ⟨hd, hw⟩
  · intro pb amount balance narr habs
    have h2 := abs_le.mp habs
    have hq1 : qblt (qadd pb eps1000) balance = false := by
      rw [qblt_eq_false_iff, qadd_eq, eps1000_eq]
      intro hlt
      have := h2.2
      linarith
    have hq2 : qblt balance (qsub pb eps1000) = false := by
      rw [qblt_eq_false_iff, qsub_eq, eps1000_eq]
      intro hlt
      have := h2.1
      linarith
    by_cases ha : 0 < amount
    · have hq3 : qblt 0 amount = true := (qblt_iff 0 amount).mpr ha
      simp [yesBankInfer, hq1, hq2, hq3, ha]
    · have hq3 : qblt 0 amount = false := (qblt_eq_false_iff 0 amount).mpr ha
      simp [yesBankInfer, hq1, hq2, hq3, ha]

/-- C2 counterexample: a row whose balance is unchanged from the previous row
(Δ = 0, within ε) but whose record has `withdrawal = 5 ≠ 0`. -/
theorem c2_equal_balance_cex :
    parse_axis_bank_format2 axisF2CexC2Text =
      some [⟨some ⟨2024, 1, 1⟩, "FOO".toList, 0, 50, 150⟩,
            ⟨some ⟨2024, 1, 2⟩, "FEE".toList, 5, 0, 150⟩] ∧
    |(150 : ℚ) - 150| ≤ 1 / 1000 ∧ (5 : ℚ) ≠ 0 := by
  refine ⟨by decide, ?_, by norm_num⟩
  rw [show (150 : ℚ) - 150 = 0 by norm_num, abs_zero]
  norm_num

set_option maxRecDepth 8000 in
set_option maxHeartbeats 2000000 in
/-- C2 witness: the amended behaviour at a concrete Δ=0 statement and a
concrete yes-bank inference call. -/
theorem c2_equal_balance_witness :
    ((0 : ℚ) = 0 ∧ (2 : ℚ) = 2 + 0) ∧
      yesBankInfer (some 100) 5 100 [] = if (0 : ℚ) < 5 then (5, 0) else (0, 0) := by
  have hp : parse_axis_bank_format2 axisF2WitC2Text =
      some [⟨some ⟨2024, 1, 1⟩, "PQR".toList, 0, 40, 240⟩,
            ⟨some ⟨2024, 1, 2⟩, "STU".toList, 2, 0, 240⟩] := by decide
  constructor
  · refine c2_equal_balance_amended.1 axisF2WitC2Text _ hp 0 (by norm_num)
      ⟨some ⟨2024, 1, 1⟩, "PQR".toList, 0, 40, 240⟩
      ⟨some ⟨2024, 1, 2⟩, "STU".toList, 2, 0, 240⟩
      rfl rfl ?_
    rw [show (240 : ℚ) - 240 = 0 by norm_num, abs_zero]
    norm_num
  · refine c2_equal_balance_amended.2 100 5 100 [] ?_
    rw [show (100 : ℚ) - 100 = 0 by norm_num, abs_zero]
    norm_num

/-- C8: under single-amount inference with prior balance 20,000.00, the line
`01-04-2024 SALARY CREDIT 5,000.00 25,000.00` yields
`deposit = 5000, withdrawal = 0, closing_balance = 25000`. -/
theorem c8_scenario_a :
    axisF2OpeningBal scenarioAText = some 20000 ∧
    parse_axis_bank_format2 scenarioAText =
      some [⟨some ⟨2024, 4, 1⟩, "SALARY CREDIT".toList, 0, 5000, 25000⟩] :=
  ⟨by decide, by decide⟩

theorem string_toList_eq_nil {s : String} (h : s.toList = []) : s = "" := by
  cases s with
  | mk d =>
    simp only [String.toList] at h
    subst h
    rfl

theorem pyStrip_replicate (n : ℕ) (c : Char) (h : isPyWS c = false) :
    pyStrip (List.replicate n c) = List.replicate n c := by
  cases n with
  | zero => rfl
  | succ k =>
    unfold pyStrip
    rw [List.replicate_succ, List.dropWhile_cons, if_neg (by simp [h]), ← List.replicate_succ,
        List.reverse_replicate, List.replicate_succ, List.dropWhile_cons, if_neg (by simp [h]),
        ← List.replicate_succ, List.reverse_replicate]

theorem containsSub_replicate (n : ℕ) (c p0 : Char) (rest : List Char) (hne : p0 ≠ c) :
    containsSub (List.replicate n c) (p0 :: rest) = false := by
  induction n with
  | zero => rfl
  | succ k ih =>
    rw [List.replicate_succ]
    show (startsWithL (c :: List.replicate k c) (p0 :: rest) ||
      containsSub (List.replicate k c) (p0 :: rest)) = false
    rw [ih]
    simp only [startsWithL, Bool.or_false]
    rw [decide_eq_false (fun hh => hne hh.symm), Bool.false_and]

theorem filter_replicate_keep (p : Char → Bool) (n : ℕ) (c : Char) (h : p c = true) :
    (List.replicate n c).filter p = List.replicate n c := by
  induction n with
  | zero => rfl
  | succ k ih => rw [List.replicate_succ, List.filter_cons, if_pos h, ih, ← List.replicate_succ]

theorem splitNLAux_no_newline (l : List Char) (h : '\n' ∉ l) :
    ∀ acc, splitNLAux l acc = [acc.reverse ++ l] := by
  induction l with
  | nil => intro acc; simp [splitNLAux]
  | cons a t ih =>
    intro acc
    have ha : a ≠ '\n' := fun hq => h (hq ▸ List.mem_cons_self a t)
    simp only [splitNLAux]
    rw [if_neg ha, ih (fun hm => h (List.mem_cons_of_mem _ hm)) (a :: acc)]
    simp [List.append_assoc]

theorem splitNLAux_append_newline (l1 : List Char) (h : '\n' ∉ l1) (l2 : List Char) :
    ∀ acc, splitNLAux (l1 ++ '\n' :: l2) acc = (acc.reverse ++ l1) :: splitNLAux l2 [] := by
  induction l1 with
  | nil => intro acc; simp [splitNLAux]
  | cons a t ih =>
    intro acc
    have ha : a ≠ '\n' := fun hq => h (hq ▸ List.mem_cons_self a t)
    have step : splitNLAux ((a :: t) ++ '\n' :: l2) acc =
        splitNLAux (t ++ '\n' :: l2) (a :: acc) := by
      rw [List.cons_append]
      simp only [splitNLAux]
      rw [if_neg ha]
    rw [step, ih (fun hm => h (List.mem_cons_of_mem _ hm)) (a :: acc)]
    simp [List.append_assoc]

theorem indusindArm_family (ut ct : List Char) : indusFamily (indusindArm ut ct) = true := by
  unfold indusindArm
  split_ifs <;> rfl

theorem kotakArm_family (ct : List Char) : kotakFamily (kotakArm ct) = true := by
  unfold kotakArm
  split_ifs <;> rfl

theorem routeAux_text_independent (uf ut ct : List Char) (t1 t2 : String)
    (hax : containsSub uf "AXIS".toList = false)
    (hau : containsSub uf "AU".toList = false)
    (hbob : containsSub uf "BARODA".toList = false) :
    routeAux uf ut ct t1 = routeAux uf ut ct t2 := by
  simp only [routeAux, hax, hau, hbob, Bool.false_eq_true, if_false]

/-- C6: the claim fails as stated (in the header-less Axis, AU and Baroda
branches the router re-runs a parser on the full text and picks the fallback
on an empty result, so the choice can differ between texts with identical
1500-character prefixes — see the counterexample); amended: the router is a
pure function of `(filename, full text)`, and whenever the upper-cased
filename contains none of `AXIS`, `AU`, `BARODA`, the selected parser depends
only on the filename and the first 1500 characters of the text. -/
theorem c6_router_prefix_amended (filename t1 t2 : String)
    (hpre : t1.toList.take 1500 = t2.toList.take 1500)
    (hax : containsSub (upperL filename.toList) "AXIS".toList = false)
    (hau : containsSub (upperL filename.toList) "AU".toList = false)
    (hbob : containsSub (upperL filename.toList) "BARODA".toList = false) :
    routeChoice filename t1 = routeChoice filename t2 := by
  have hemp : t1.isEmpty = t2.isEmpty := by
    by_cases h1 : t1 = ""
    · subst h1
      have h2 : t2.toList.take 1500 = [] := by rw [← hpre]; rfl
      rw [List.take_eq_nil_iff] at h2
      rcases h2 with h2 | h2
      · exact absurd h2 (by norm_num)
      · rw [string_toList_eq_nil h2]
    · by_cases h2 : t2 = ""
      · subst h2
        have h3 : t1.toList.take 1500 = [] := by rw [hpre]; rfl
        rw [List.take_eq_nil_iff] at h3
        rcases h3 with h3 | h3
        · exact absurd h3 (by norm_num)
        · exact absurd (string_toList_eq_nil h3) h1
      · rw [Bool.eq_false_iff.mpr (fun hc => h1 ((String.isEmpty_iff t1).mp hc)),
            Bool.eq_false_iff.mpr (fun hc => h2 ((String.isEmpty_iff t2).mp hc))]
  unfold routeChoice
  rw [hemp, hpre]
  by_cases he : t2.isEmpty
  · rw [if_pos he, if_pos he]
  · rw [if_neg (by simp [he]), if_neg (by simp [he])]
    exact routeAux_text_independent _ _ _ t1 t2 hax hau hbob

theorem string_toList_append (a b : String) : (a ++ b).toList = a.toList ++ b.toList := by
  simp [String.toList, String.data_append]

set_option maxRecDepth 8000

/-- C3: code bug — the spec requires every returned row to have a valid date,
but `parse_hdfc_bank` parses the transaction date with `errors="coerce"` and
never drops the resulting `NaT` rows: on a line whose date token matches the
`dd/mm/yy` shape but is no calendar date (`99/99/99`), the parser returns a
row whose date field is null. -/
theorem c3_hdfc_null_date_row :
    parse_hdfc_bank hdfcNaTText = [⟨none, "FOO".toList, 100, 0, 200⟩] := by
  with_unfolding_all decide

/-- C5: for an encrypted document (and for a reader failure), text extraction
returns the failure value instead of raising, and the end-to-end parse of that
file is the empty record set. -/
theorem c5_extraction_failure_empty (filename : String) (input : PdfInput)
    (h : input = PdfInput.failure ∨ ∃ pages, input = PdfInput.doc true pages) :
    extract_text_from_pdf filename input = none ∧
      parse_bank_statement filename input = some [] := by
  rcases h with h | ⟨pages, h⟩ <;> subst h <;>
    simp [extract_text_from_pdf, parse_bank_statement]

/-- C5 witness: a concrete encrypted document. -/
theorem c5_extraction_failure_empty_witness :
    extract_text_from_pdf "locked.pdf" (PdfInput.doc true ["SECRET"]) = none ∧
      parse_bank_statement "locked.pdf" (PdfInput.doc true ["SECRET"]) = some [] :=
  c5_extraction_failure_empty "locked.pdf" _ (Or.inr ⟨["SECRET"], rfl⟩)

/-- C9: in money normalization, `-` and the empty string map to 0 for amount
fields; an exactly-`-` value is the only dash form zeroed, and any token whose
cleaned form still parses as a number (e.g. `-5.00`) keeps its value, so a
dash with trailing characters is never silently zeroed for the balance
column. -/
theorem c9_money_normalization :
    cleanMoneyDashTo0 "-".toList = 0 ∧ cleanMoneyDashTo0 "".toList = 0 ∧
    cleanMoneyEmptyTo0 "-".toList = 0 ∧ cleanMoneyEmptyTo0 "".toList = 0 ∧
    cleanMoneyDashTo0 "-5.00".toList = -5 ∧
    (∀ (tok : List Char) (q : ℚ), pyFloatQ (pyStrip (decomma tok)) = some q →
      cleanMoneyDashTo0 tok = q) := by
  refine ⟨by decide, by decide, by decide, by decide, by decide, ?_⟩
  intro tok q h
  exact cleanMoneyDashTo0_keeps tok q h

/-- C9 witness: a parseable negative token keeps its value under the
dash-aware normalizer. -/
theorem c9_money_normalization_witness :
    cleanMoneyDashTo0 "-7.5".toList = mkRat (-15) 2 :=
  c9_money_normalization.2.2.2.2.2 "-7.5".toList (mkRat (-15) 2) (by decide)

/-- C7: when the filename matches no known bank substring and neither
fingerprint (`INDB`, `KKBK`) occurs in the cleaned text prefix, the router
selects no parser and the result is the empty record set, as a normal
outcome. -/
theorem c7_unknown_bank_empty (filename t : String)
    (h1 : ∀ n ∈ bankNeedles, containsSub (upperL filename.toList) n.toList = false)
    (h2 : containsSub (remWS (upperL (t.toList.take 1500))) "INDB".toList = false)
    (h3 : containsSub (remWS (upperL (t.toList.take 1500))) "KKBK".toList = false) :
    (routeChoice filename t = Choice.noText ∨ routeChoice filename t = Choice.unknownBank) ∧
      runChoice (routeChoice filename t) t = some [] := by
  have n01 := h1 "PUNJAB NATIONAL" (by decide)
  have n02 := h1 "PNB" (by decide)
  have n03 := h1 "YES BANK" (by decide)
  have n04 := h1 "UNION" (by decide)
  have n05 := h1 "INDIAN BANK" (by decide)
  have n06 := h1 "SBI" (by decide)
  have n07 := h1 "DHANLAXMI" (by decide)
  have n08 := h1 "SARASWAT" (by decide)
  have n09 := h1 "IDBI" (by decide)
  have n10 := h1 "IDFCFIRST" (by decide)
  have n11 := h1 "INDIAN OVERSEAS" (by decide)
  have n12 := h1 "HDFC" (by decide)
  have n13 := h1 "AXIS" (by decide)
  have n14 := h1 "INDUSIND" (by decide)
  have n15 := h1 "AU" (by decide)
  have n16 := h1 "ICICI" (by decide)
  have n17 := h1 "KOTAK" (by decide)
  have n18 := h1 "UCO" (by decide)
  have n19 := h1 "CENTRAL BANK" (by decide)
  have n20 := h1 "PUNJAB & SIND" (by decide)
  have n21 := h1 "CANARA" (by decide)
  have n22 := h1 "EQUITAS" (by decide)
  have n23 := h1 "FEDERAL BANK" (by decide)
  have n24 := h1 "BANDHAN" (by decide)
  have n25 := h1 "BARODA" (by decide)
  have n26 := h1 "BANK OF INDIA" (by decide)
  by_cases he : t.isEmpty
  · rw [routeChoice, if_pos he]
    exact ⟨Or.inl rfl, rfl⟩
  · have hroute : routeChoice filename t = Choice.unknownBank := by
      rw [routeChoice, if_neg he]
      simp only [routeAux, n01, n02, n03, n04, n05, n06, n07, n08, n09, n10, n11, n12, n13,
        n14, n15, n16, n17, n18, n19, n20, n21, n22, n23, n24, n25, n26, h2, h3,
        Bool.or_self, Bool.false_or, Bool.or_false, Bool.false_eq_true, if_false]
    rw [hroute]
    exact ⟨Or.inr rfl, rfl⟩

/-- C7 witness: a concrete unknown-bank filename and text. -/
theorem c7_unknown_bank_empty_witness :
    (routeChoice "statement.pdf" "hello" = Choice.noText ∨
     routeChoice "statement.pdf" "hello" = Choice.unknownBank) ∧
      runChoice (routeChoice "statement.pdf" "hello") "hello" = some [] :=
  c7_unknown_bank_empty "statement.pdf" "hello" (by decide) (by decide) (by decide)

/-- C10: with a filename naming no bank, the text fingerprint alone selects
the bank: an `INDB` occurrence in the cleaned 1500-character prefix routes to
the IndusInd parser family, and otherwise a `KKBK` occurrence routes to the
Kotak parser family. -/
theorem c10_fingerprint_bank_selection (filename t : String)
    (h1 : ∀ n ∈ bankNeedles, containsSub (upperL filename.toList) n.toList = false) :
    (containsSub (remWS (upperL (t.toList.take 1500))) "INDB".toList = true →
      indusFamily (routeChoice filename t) = true) ∧
    (containsSub (remWS (upperL (t.toList.take 1500))) "INDB".toList = false →
     containsSub (remWS (upperL (t.toList.take 1500))) "KKBK".toList = true →
      kotakFamily (routeChoice filename t) = true) := by
  have n01 := h1 "PUNJAB NATIONAL" (by decide)
  have n02 := h1 "PNB" (by decide)
  have n03 := h1 "YES BANK" (by decide)
  have n04 := h1 "UNION" (by decide)
  have n05 := h1 "INDIAN BANK" (by decide)
  have n06 := h1 "SBI" (by decide)
  have n07 := h1 "DHANLAXMI" (by decide)
  have n08 := h1 "SARASWAT" (by decide)
  have n09 := h1 "IDBI" (by decide)
  have n10 := h1 "IDFCFIRST" (by decide)
  have n11 := h1 "INDIAN OVERSEAS" (by decide)
  have n12 := h1 "HDFC" (by decide)
  have n13 := h1 "AXIS" (by decide)
  have n14 := h1 "INDUSIND" (by decide)
  have n15 := h1 "AU" (by decide)
  have n16 := h1 "ICICI" (by decide)
  have hempty : ∀ pat : List Char, pat.isEmpty = false →
      containsSub (remWS (upperL (t.toList.take 1500))) pat = true → t.isEmpty = false := by
    intro pat hpat hc
    rw [Bool.eq_false_iff]
    intro hte
    have ht : t = "" := (String.isEmpty_iff t).mp hte
    subst ht
    have : containsSub (remWS (upperL (("" : String).toList.take 1500))) pat = pat.isEmpty := rfl
    rw [this, hpat] at hc
    exact absurd hc (by simp)
  constructor
  · intro hINDB
    have he := hempty _ (by decide) hINDB
    rw [routeChoice, if_neg (by simp [he])]
    simp only [routeAux, n01, n02, n03, n04, n05, n06, n07, n08, n09, n10, n11, n12, n13,
      n14, hINDB, Bool.or_self, Bool.false_or, Bool.or_false, Bool.or_true,
      Bool.false_eq_true, if_false, if_true]
    exact indusindArm_family _ _
  · intro hINDB hKKBK
    have he := hempty _ (by decide) hKKBK
    rw [routeChoice, if_neg (by simp [he])]
    simp only [routeAux, n01, n02, n03, n04, n05, n06, n07, n08, n09, n10, n11, n12, n13,
      n14, n15, n16, h1 "KOTAK" (by decide), hINDB, hKKBK, Bool.or_self, Bool.false_or,
      Bool.or_false, Bool.or_true, Bool.false_eq_true, if_false, if_true]
    exact kotakArm_family _

/-- C10 witness: a neutral filename with concrete `INDB` and `KKBK`
fingerprints. -/
theorem c10_fingerprint_bank_selection_witness :
    indusFamily (routeChoice "statement.pdf" "XINDBX") = true ∧
      kotakFamily (routeChoice "statement.pdf" "YKKBKY") = true :=
  ⟨(c10_fingerprint_bank_selection "statement.pdf" "XINDBX" (by decide)).1 (by decide),
   (c10_fingerprint_bank_selection "statement.pdf" "YKKBKY" (by decide)).2
     (by decide) (by decide)⟩

theorem prefixCexTextA_toList :
    prefixCexTextA.toList =
      List.replicate 1500 'Z' ++ '\n' :: "1 01/01/2024 X N 5.00 3.00 100.00".toList := by
  show (fillerZ ++ "\n1 01/01/2024 X N 5.00 3.00 100.00").toList = _
  rw [string_toList_append]
  rfl

theorem prefixCexTextA_split :
    splitNL prefixCexTextA.toList =
      [List.replicate 1500 'Z', "1 01/01/2024 X N 5.00 3.00 100.00".toList] := by
  rw [prefixCexTextA_toList]
  unfold splitNL
  rw [splitNLAux_append_newline _ (by intro hm; rw [List.mem_replicate] at hm; exact absurd hm.2 (by decide)) _ []]
  rw [splitNLAux_no_newline _ (by decide) []]
  simp only [List.reverse_nil, List.nil_append]

theorem patAxisF1_replicate : patAxisF1 (List.replicate 1500 'Z') = false := by decide

theorem axisF1Line_replicate : axisF1Line (List.replicate 1500 'Z') = none := by
  unfold axisF1Line
  rw [if_pos (by rw [patAxisF1_replicate]; decide)]

theorem parse_axis_f1_cexA :
    parse_axis_bank_format1 prefixCexTextA = [⟨some ⟨2024, 1, 1⟩, "N".toList, 5, 3, 100⟩] := by
  unfold parse_axis_bank_format1
  rw [prefixCexTextA_split]
  have hstrip : pyStrip "1 01/01/2024 X N 5.00 3.00 100.00".toList =
      "1 01/01/2024 X N 5.00 3.00 100.00".toList := by decide
  have hpat : patAxisF1 "1 01/01/2024 X N 5.00 3.00 100.00".toList = true := by decide
  have hline : axisF1Line "1 01/01/2024 X N 5.00 3.00 100.00".toList =
      some ⟨some ⟨2024, 1, 1⟩, "N".toList, 5, 3, 100⟩ := by decide
  simp only [assemble, pyStrip_replicate 1500 'Z' rfl, hstrip, hpat, Bool.false_eq_true,
    if_false, eq_self_iff_true, if_true, List.reverse_cons, List.reverse_nil, List.nil_append,
    List.singleton_append, List.filterMap_cons, axisF1Line_replicate, hline, List.filterMap_nil]

theorem fillerZ_toList : fillerZ.toList = List.replicate 1500 'Z' := rfl

theorem prefixCexTextB_toList : prefixCexTextB.toList = List.replicate 1500 'Z' := rfl

theorem prefixCexTextB_split :
    splitNL prefixCexTextB.toList = [List.replicate 1500 'Z'] := by
  rw [prefixCexTextB_toList]
  unfold splitNL
  rw [splitNLAux_no_newline _ (by intro hm; rw [List.mem_replicate] at hm; exact absurd hm.2 (by decide)) []]
  simp only [List.reverse_nil, List.nil_append]

theorem parse_axis_f1_cexB : parse_axis_bank_format1 prefixCexTextB = [] := by
  unfold parse_axis_bank_format1
  rw [prefixCexTextB_split]
  simp only [assemble, pyStrip_replicate 1500 'Z' rfl, Bool.false_eq_true, if_false,
    eq_self_iff_true, if_true, List.reverse_cons, List.reverse_nil, List.nil_append,
    List.filterMap_cons, axisF1Line_replicate, List.filterMap_nil]

theorem upperL_replicateZ :
    upperL (List.replicate 1500 'Z') = List.replicate 1500 'Z' := by
  unfold upperL
  rw [List.map_replicate, show Char.toUpper 'Z' = 'Z' from by decide]

theorem remWS_replicateZ :
    remWS (List.replicate 1500 'Z') = List.replicate 1500 'Z' := by
  unfold remWS
  exact filter_replicate_keep _ 1500 'Z' (by decide)

theorem takeA : prefixCexTextA.toList.take 1500 = List.replicate 1500 'Z' := by
  rw [prefixCexTextA_toList]
  exact List.take_left' (by simp)

theorem takeB : prefixCexTextB.toList.take 1500 = List.replicate 1500 'Z' := by
  rw [prefixCexTextB_toList, List.take_replicate]
  norm_num

theorem cSNo : containsSub (List.replicate 1500 'Z') "S.NOTRANSACTION".toList = false := by
  rw [show "S.NOTRANSACTION".toList = 'S' :: ".NOTRANSACTION".toList from rfl]
  exact containsSub_replicate 1500 'Z' 'S' _ (by decide)

theorem cTran : containsSub (List.replicate 1500 'Z') "TRANDATECHQNO".toList = false := by
  rw [show "TRANDATECHQNO".toList = 'T' :: "RANDATECHQNO".toList from rfl]
  exact containsSub_replicate 1500 'Z' 'T' _ (by decide)

theorem routeA : routeChoice "AXIS.pdf" prefixCexTextA = Choice.axisF1 := by
  have hne : prefixCexTextA.isEmpty = false := by
    rw [Bool.eq_false_iff]
    intro h
    rw [String.isEmpty_iff] at h
    have h2 := congrArg String.toList h
    rw [prefixCexTextA_toList, show "".toList = ([] : List Char) from rfl,
        List.append_eq_nil] at h2
    exact absurd h2.2 (by simp)
  unfold routeChoice
  simp only [hne, Bool.false_eq_true, if_false]
  rw [takeA, upperL_replicateZ, remWS_replicateZ]
  unfold routeAux
  rw [if_neg (by decide), if_neg (by decide), if_neg (by decide), if_neg (by decide),
      if_neg (by decide), if_neg (by decide), if_neg (by decide), if_neg (by decide),
      if_neg (by decide), if_neg (by decide), if_neg (by decide), if_pos (by decide)]
  unfold axisArm
  simp only [cSNo, cTran, Bool.false_eq_true, if_false]
  rw [parse_axis_f1_cexA]
  rfl

theorem routeB : routeChoice "AXIS.pdf" prefixCexTextB = Choice.axisF2 := by
  have hne : prefixCexTextB.isEmpty = false := by
    rw [Bool.eq_false_iff]
    intro h
    rw [String.isEmpty_iff] at h
    have h2 := congrArg String.toList h
    rw [prefixCexTextB_toList, show "".toList = ([] : List Char) from rfl] at h2
    have h3 := congrArg List.length h2
    rw [List.length_replicate] at h3
    simp at h3
  unfold routeChoice
  simp only [hne, Bool.false_eq_true, if_false]
  rw [takeB, upperL_replicateZ, remWS_replicateZ]
  unfold routeAux
  rw [if_neg (by decide), if_neg (by decide), if_neg (by decide), if_neg (by decide),
      if_neg (by decide), if_neg (by decide), if_neg (by decide), if_neg (by decide),
      if_neg (by decide), if_neg (by decide), if_neg (by decide), if_pos (by decide)]
  unfold axisArm
  simp only [cSNo, cTran, Bool.false_eq_true, if_false]
  rw [parse_axis_f1_cexB]
  rfl

/-- C6 counterexample: two texts with identical 1500-character prefixes on
which the router, given the same Axis filename, selects different parsers. -/
theorem c6_router_prefix_cex :
    prefixCexTextA.toList.take 1500 = prefixCexTextB.toList.take 1500 ∧
      routeChoice "AXIS.pdf" prefixCexTextA ≠ routeChoice "AXIS.pdf" prefixCexTextB := by
  constructor
  · rw [takeA, takeB]
  · rw [routeA, routeB]
    simp

theorem c6_router_prefix_witness :
    routeChoice "ICICI" prefixWitTextA = routeChoice "ICICI" prefixWitTextB := by
  refine c6_router_prefix_amended "ICICI" _ _ ?_ (by decide) (by decide) (by decide)
  show ((fillerZ ++ "A").toList).take 1500 = ((fillerZ ++ "B").toList).take 1500
  rw [string_toList_append, string_toList_append, fillerZ_toList,
      List.take_left' (by simp), List.take_left' (by simp)]
